import Mathlib

/-!
Verification of the copilot-browser-bridge action parser, executor and
autonomous-loop controller.

The TypeScript source is shallowly embedded:
 -  JS strings are `List Char` (one entry per UTF-16-ish code point; all the
    inputs the claims touch are plain BMP text, where JS string indices and
    list positions agree).
 -  Host/runtime primitives that the source calls but does not define
    (JSON.parse, Number, parseFloat, the DOM query APIs, the chrome.*
    bridge, script execution inside the page) are modelled as oracle
    parameters: the theorems quantify over every possible behaviour of the
    host, so they hold for the real runtime in particular.
 -  Source-level loops are embedded as structural recursions over an
    explicit fuel argument; each top-level wrapper passes the fuel that
    mirrors the source loop's own bound (the scan position is strictly
    increasing and bounded by the string length, or the loop counter is
    bounded by the configured maximum), so the wrapper computes exactly
    what the source loop computes.
-/

namespace CopilotBridge

/-- JS strings, one `Char` per code point. -/
abbrev Str := List Char

/-- String literal helper: a Lean string literal viewed as a JS string. -/
def lit (s : String) : Str := s.data

/-- The whitespace class trimmed by `String.prototype.trim` and matched by
the regex class `\s`, restricted to its ASCII members (the source never
feeds non-ASCII whitespace to these functions). -/
def jsWs (c : Char) : Bool :=
  c = ' ' || c = '\t' || c = '\n' || c = '\r' || c = '\x0b' || c = '\x0c'

/-- Model of `String.prototype.trim`: drop the whitespace run at each end. -/
def jsTrim (s : Str) : Str :=
  ((s.dropWhile jsWs).reverse.dropWhile jsWs).reverse

/-- Model of `String.prototype.toLowerCase` on the ASCII range. -/
def jsToLower (s : Str) : Str := s.map Char.toLower

/-- Model of `String.prototype.startsWith`. -/
def strStartsWith (s pat : Str) : Bool := pat.isPrefixOf s

/-- Model of `String.prototype.endsWith`. -/
def strEndsWith (s pat : Str) : Bool := pat.isSuffixOf s

/-- Model of `String.prototype.indexOf(pat, from)`: the least index
`k ≥ from` at which `pat` occurs, `none` standing for the JS result -1. -/
def strIndexOfFrom (s pat : Str) (from0 : Nat) : Option Nat :=
  (List.range (s.length + 1)).find? fun k =>
    decide (from0 ≤ k) && pat.isPrefixOf (s.drop k)

/-- Model of `String.prototype.indexOf(pat)`. -/
def strIndexOf (s pat : Str) : Option Nat := strIndexOfFrom s pat 0

/-- Model of `String.prototype.includes`. -/
def strIncludes (s pat : Str) : Bool := (strIndexOf s pat).isSome

/-- Model of `String.prototype.substring(a, b)` (clamping, swapping ends). -/
def strSubstring (s : Str) (a b : Nat) : Str :=
  (s.drop (min a b)).take (max a b - min a b)

/-- Model of `String.prototype.substring(a)` (up to the end). -/
def strSubstringFrom (s : Str) (a : Nat) : Str := s.drop a

/-- Model of `String.prototype.split(sep)` for a one-character separator:
splits at every occurrence, keeping empty pieces. -/
def strSplitOn (s : Str) (sep : Char) : List Str :=
  go s []
where
  go : Str → Str → List Str
    | [], acc => [acc.reverse]
    | c :: rest, acc =>
      if c = sep then acc.reverse :: go rest [] else go rest (c :: acc)

/-- Model of `Array.prototype.join(",")`. -/
def joinComma : List Str → Str
  | [] => []
  | [x] => x
  | x :: xs => x ++ ',' :: joinComma xs

/-- JS string truthiness applied to an optional string: `undefined` and the
empty string are falsy. -/
def truthyStr : Option Str → Option Str
  | none => none
  | some s => if s = [] then none else some s

/-- JSON values, as returned by the host primitive `JSON.parse`. -/
inductive Json where
  | null
  | bool (b : Bool)
  | num (q : Rat)
  | str (s : Str)
  | arr (elems : List Json)
  | obj (fields : List (Str × Json))

/-- Property access `v[k]` on a parsed JSON value, `none` for absent. -/
def Json.get? : Json → Str → Option Json
  | .obj fields, k => (fields.find? fun f => f.1 == k).map Prod.snd
  | _, _ => none

/-- Read a property that the TypeScript cast types as `string`. -/
def Json.getStr (v : Json) (k : Str) : Option Str :=
  match v.get? k with
  | some (.str s) => some s
  | _ => none

/-- Read a property that the TypeScript cast types as `boolean`. -/
def Json.getBool (v : Json) (k : Str) : Option Bool :=
  match v.get? k with
  | some (.bool b) => some b
  | _ => none

/-- Read a property that the TypeScript cast types as `string[]`. -/
def Json.getStrList (v : Json) (k : Str) : Option (List Str) :=
  match v.get? k with
  | some (.arr es) =>
    some (es.filterMap fun e => match e with | .str s => some s | _ => none)
  | _ => none

/-- Array detection, `Array.isArray`. -/
def Json.asArr? : Json → Option (List Json)
  | .arr es => some es
  | _ => none

/-- Host primitives the parser calls but the repository does not define:
`JSON.parse` (`none` models a thrown SyntaxError), `Number(...)` and
`parseFloat(...)` (`none` models NaN; finite values are modelled as
rationals since no claim depends on float rounding). Theorems quantify
over every `HostOps`, so they cover the real runtime. -/
structure HostOps where
  jsonParse : Str → Option Json
  numberParse : Str → Option Rat
  floatParse : Str → Option Rat

/-- The degenerate host used to instantiate closed witnesses on inputs
whose parsing never reaches a host primitive. -/
def trivialHost : HostOps :=
  { jsonParse := fun _ => none
    numberParse := fun _ => none
    floatParse := fun _ => none }

/-- Form field for the fillForm action (src/entrypoints/sidepanel/types.ts,
interface FormField). -/
structure FormField where
  selector : Str
  value : Str
  type : Option Str
deriving DecidableEq

/-- Browser action union (src/entrypoints/sidepanel/types.ts, type
BrowserAction). Optional TS fields become `Option`; numeric fields use
`Rat` (JS numbers; no claim depends on float rounding). -/
inductive BrowserAction where
  | navigate (url : Str)
  | click (selector : Str) (doubleClick : Option Bool) (button : Option Str)
      (modifiers : Option (List Str))
  | type (selector : Str) (text : Str) (submit : Option Bool) (slowly : Option Bool)
  | scroll (direction : Str) (amount : Option Rat)
  | back
  | forward
  | reload
  | newTab (url : Option Str)
  | closeTab
  | screenshot
  | getHtml (selector : Option Str)
  | waitForSelector (selector : Str) (timeout : Option Rat)
  | waitForText (text : Str) (timeout : Option Rat)
  | waitForTextGone (text : Str) (timeout : Option Rat)
  | radio (selector : Str) (value : Option Str)
  | check (selector : Str)
  | uncheck (selector : Str)
  | select (selector : Str) (value : Str)
  | slider (selector : Str) (value : Rat)
  | fillForm (fields : List FormField)
  | upload (selector : Str) (files : List Str)
  | drag (startSelector : Str) (endSelector : Str)
  | hover (selector : Str)
  | focus (selector : Str)
  | clickXY (x : Rat) (y : Rat) (button : Option Str)
  | handleDialog (accept : Bool) (promptText : Option Str)
  | pressKey (key : Str)
  | evaluate (script : Str) (selector : Option Str)
  | getConsole (level : Option Str)
  | getNetwork (includeStatic : Option Bool)
  | playwright (action : Str) (params : Json)

/-- The `type` tag string of an action value, as it appears in the source
union. -/
def BrowserAction.tag : BrowserAction → Str
  | .navigate _ => lit "navigate"
  | .click _ _ _ _ => lit "click"
  | .type _ _ _ _ => lit "type"
  | .scroll _ _ => lit "scroll"
  | .back => lit "back"
  | .forward => lit "forward"
  | .reload => lit "reload"
  | .newTab _ => lit "newTab"
  | .closeTab => lit "closeTab"
  | .screenshot => lit "screenshot"
  | .getHtml _ => lit "getHtml"
  | .waitForSelector _ _ => lit "waitForSelector"
  | .waitForText _ _ => lit "waitForText"
  | .waitForTextGone _ _ => lit "waitForTextGone"
  | .radio _ _ => lit "radio"
  | .check _ => lit "check"
  | .uncheck _ => lit "uncheck"
  | .select _ _ => lit "select"
  | .slider _ _ => lit "slider"
  | .fillForm _ => lit "fillForm"
  | .upload _ _ => lit "upload"
  | .drag _ _ => lit "drag"
  | .hover _ => lit "hover"
  | .focus _ => lit "focus"
  | .clickXY _ _ _ => lit "clickXY"
  | .handleDialog _ _ => lit "handleDialog"
  | .pressKey _ => lit "pressKey"
  | .evaluate _ _ => lit "evaluate"
  | .getConsole _ => lit "getConsole"
  | .getNetwork _ => lit "getNetwork"
  | .playwright _ _ => lit "playwright"

/-- Helper for the `type` action case: the while loop that pops trailing
`submit` / `slowly` / `slow` keywords while more than one part remains.
It runs on the reversed part list (the source pops from the end). -/
def stripTrailingFlags : List Str → Bool → Bool → List Str × Bool × Bool
  | [], submit, slowly => ([], submit, slowly)
  | last :: rest, submit, slowly =>
    if rest = [] then (last :: rest, submit, slowly)
    else
      let l := jsToLower last
      if l = lit "submit" then stripTrailingFlags rest true slowly
      else if l = lit "slowly" ∨ l = lit "slow" then
        stripTrailingFlags rest submit true
      else (last :: rest, submit, slowly)

/-- Conversion of a parsed JSON array element to a form field, following the
TypeScript cast `FormField` (absent or non-string properties read as empty,
which the cast leaves unchecked). -/
def jsonToFormField (j : Json) : FormField :=
  { selector := (j.getStr (lit "selector")).getD []
    value := (j.getStr (lit "value")).getD []
    type := j.getStr (lit "type") }

/-- src/entrypoints/sidepanel/types.ts, function parseAction: one entry of
the bracketed micro-DSL, already split into a lowercased action type and an
optional raw parameter string. `none` models the source returning null. -/
def parseAction (ops : HostOps) (t : Str) (params : Option Str) : Option BrowserAction :=
  let trimmedParams : Option Str := params.map jsTrim
  if t = lit "navigate" ∨ t = lit "goto" ∨ t = lit "open" then
    (truthyStr trimmedParams).map fun p => .navigate p
  else if t = lit "click" then
    match truthyStr trimmedParams with
    | none => none
    | some p =>
      if strStartsWith p (lit "\x7b") then
        match ops.jsonParse p with
        | some v =>
          match truthyStr (v.getStr (lit "selector")) with
          | some sel =>
            some (.click sel (v.getBool (lit "doubleClick"))
              (v.getStr (lit "button")) (v.getStrList (lit "modifiers")))
          | none => none
        | none => some (.click p none none none)
      else some (.click p none none none)
  else if t = lit "doubleclick" then
    (truthyStr trimmedParams).map fun p => .click p (some true) none none
  else if t = lit "type" ∨ t = lit "input" then
    match truthyStr trimmedParams with
    | none => none
    | some p =>
      let fallback : Option BrowserAction :=
        let parts := (strSplitOn p ',').map jsTrim
        match truthyStr parts.head? with
        | none => none
        | some sel =>
          let res := stripTrailingFlags parts.tail.reverse false false
          let text := jsTrim (joinComma res.1.reverse)
          if text = [] then none
          else some (.type sel text (some res.2.1) (some res.2.2))
      if strStartsWith p (lit "\x7b") then
        match ops.jsonParse p with
        | some v =>
          match truthyStr (v.getStr (lit "selector")),
              truthyStr (v.getStr (lit "text")) with
          | some sel, some text =>
            some (.type sel text (v.getBool (lit "submit"))
              (v.getBool (lit "slowly")))
          | _, _ => none
        | none => fallback
      else fallback
  else if t = lit "scroll" then
    some (.scroll (if trimmedParams = some (lit "up") then lit "up" else lit "down") none)
  else if t = lit "back" then some .back
  else if t = lit "forward" then some .forward
  else if t = lit "reload" ∨ t = lit "refresh" then some .reload
  else if t = lit "newtab" then some (.newTab trimmedParams)
  else if t = lit "closetab" then some .closeTab
  else if t = lit "screenshot" then some .screenshot
  else if t = lit "gethtml" then some (.getHtml trimmedParams)
  else if t = lit "waitforselector" then
    match truthyStr trimmedParams with
    | none => none
    | some p =>
      let parts := (strSplitOn p ',').map jsTrim
      let timeout : Option Rat :=
        match truthyStr (parts.get? 1) with
        | some ts => ops.numberParse ts
        | none => none
      match truthyStr parts.head? with
      | some sel => some (.waitForSelector sel timeout)
      | none => none
  else if t = lit "waitfortext" then
    match truthyStr trimmedParams with
    | none => none
    | some p =>
      let parts := (strSplitOn p ',').map jsTrim
      let timeout : Option Rat :=
        match truthyStr (parts.get? 1) with
        | some ts => ops.numberParse ts
        | none => none
      match truthyStr parts.head? with
      | some text => some (.waitForText text timeout)
      | none => none
  else if t = lit "waitfortextgone" then
    match truthyStr trimmedParams with
    | none => none
    | some p =>
      let parts := (strSplitOn p ',').map jsTrim
      let timeout : Option Rat :=
        match truthyStr (parts.get? 1) with
        | some ts => ops.numberParse ts
        | none => none
      match truthyStr parts.head? with
      | some text => some (.waitForTextGone text timeout)
      | none => none
  else if t = lit "radio" then
    let parts := match trimmedParams with
      | some p => (strSplitOn p ',').map jsTrim
      | none => []
    match truthyStr parts.head? with
    | some sel => some (.radio sel (parts.get? 1))
    | none => none
  else if t = lit "check" then
    (truthyStr trimmedParams).map fun p => .check p
  else if t = lit "uncheck" then
    (truthyStr trimmedParams).map fun p => .uncheck p
  else if t = lit "select" then
    let parts := match trimmedParams with
      | some p => (strSplitOn p ',').map jsTrim
      | none => []
    match truthyStr parts.head?, truthyStr (parts.get? 1) with
    | some sel, some v => some (.select sel v)
    | _, _ => none
  else if t = lit "slider" then
    let parts := match trimmedParams with
      | some p => (strSplitOn p ',').map jsTrim
      | none => []
    let value : Option Rat :=
      match parts.get? 1 with
      | some vs => ops.floatParse vs
      | none => none
    match truthyStr parts.head?, value with
    | some sel, some v => some (.slider sel v)
    | _, _ => none
  else if t = lit "fillform" then
    match truthyStr trimmedParams with
    | none => none
    | some p =>
      let fallback : Option BrowserAction :=
        let fields := (((strSplitOn p ';').map jsTrim).filter (· ≠ [])).map
          fun pair =>
            let kv := (strSplitOn pair '=').map jsTrim
            { selector := kv.head?.getD [], value := (kv.get? 1).getD []
              type := none : FormField }
        let fields := fields.filter fun f => f.selector ≠ []
        if fields.length > 0 then some (.fillForm fields) else none
      if strStartsWith p (lit "\x7b") ∨ strStartsWith p (lit "[") then
        match ops.jsonParse p with
        | some v =>
          let fields := match v.asArr? with
            | some es => es
            | none =>
              match v.get? (lit "fields") with
              | some (.arr es) => es
              | _ => []
          if fields.length > 0 then
            some (.fillForm (fields.map jsonToFormField))
          else none
        | none => fallback
      else fallback
  else if t = lit "upload" then
    match truthyStr trimmedParams with
    | none => none
    | some p =>
      let parts := (strSplitOn p ',').map jsTrim
      match truthyStr parts.head? with
      | some sel => some (.upload sel [])
      | none => none
  else if t = lit "drag" then
    let parts := match trimmedParams with
      | some p => (strSplitOn p ',').map jsTrim
      | none => []
    match truthyStr parts.head?, truthyStr (parts.get? 1) with
    | some s, some e => some (.drag s e)
    | _, _ => none
  else if t = lit "hover" then
    (truthyStr trimmedParams).map fun p => .hover p
  else if t = lit "focus" then
    (truthyStr trimmedParams).map fun p => .focus p
  else if t = lit "clickxy" then
    match truthyStr trimmedParams with
    | none => none
    | some p =>
      let parts := (strSplitOn p ',').map jsTrim
      let x : Option Rat :=
        match parts.head? with
        | some xs => ops.numberParse xs
        | none => none
      let y : Option Rat :=
        match parts.get? 1 with
        | some ys => ops.numberParse ys
        | none => none
      match x, y with
      | some xv, some yv => some (.clickXY xv yv (parts.get? 2))
      | _, _ => none
  else if t = lit "handledialog" then
    match truthyStr trimmedParams with
    | none => none
    | some p =>
      let parts := (strSplitOn p ',').map jsTrim
      let decision := parts.head?.getD []
      let accept :=
        jsToLower decision = lit "accept" ∨ jsToLower decision = lit "true"
      let promptText := jsTrim (joinComma parts.tail)
      some (.handleDialog accept (truthyStr (some promptText)))
  else if t = lit "presskey" ∨ t = lit "press" ∨ t = lit "key" then
    (truthyStr trimmedParams).map fun p => .pressKey p
  else if t = lit "evaluate" then
    match truthyStr trimmedParams with
    | none => none
    | some p =>
      let fallback : Option BrowserAction :=
        match strIndexOf p [','] with
        | some k =>
          if k > 0 then
            let sel := jsTrim (strSubstring p 0 k)
            let script := jsTrim (strSubstringFrom p (k + 1))
            if script = [] then none else some (.evaluate script (some sel))
          else some (.evaluate p none)
        | none => some (.evaluate p none)
      if strStartsWith p (lit "\x7b") then
        match ops.jsonParse p with
        | some v =>
          match truthyStr (v.getStr (lit "script")) with
          | some script => some (.evaluate script (v.getStr (lit "selector")))
          | none => none
        | none => fallback
      else fallback
  else if t = lit "getconsole" ∨ t = lit "console" then
    some (.getConsole trimmedParams)
  else if t = lit "getnetwork" ∨ t = lit "network" then
    some (.getNetwork (some (trimmedParams = some (lit "true") ∨
      trimmedParams = some (lit "static") : Bool)))
  else if t = lit "playwright" then
    match trimmedParams with
    | none => none
    | some p =>
      match strIndexOf p [','] with
      | some k =>
        if k > 0 then
          let action := jsTrim (strSubstring p 0 k)
          let paramsStr := jsTrim (strSubstringFrom p (k + 1))
          match ops.jsonParse paramsStr with
          | some v => some (.playwright action v)
          | none =>
            some (.playwright action (Json.obj [(lit "raw", .str paramsStr)]))
        else none
      | none => none
  else none

/-- src/entrypoints/sidepanel/types.ts, parseActionsFromResponse: the inner
while loop that finds the matching closing bracket, counting nested `[`/`]`.
Returns the final scan position and remaining depth. The fuel is the number
of remaining loop iterations; each iteration advances `j` and the guard
stops at the string end, so `s.length` fuel (supplied by `scanClose`) is
always enough. -/
def scanCloseGo (s : Str) : Nat → Nat → Nat → Nat × Nat
  | 0, j, depth => (j, depth)
  | fuel + 1, j, depth =>
    if h : j < s.length ∧ 0 < depth then
      let c := s.get ⟨j, h.1⟩
      let depth2 :=
        if c = '[' then depth + 1 else if c = ']' then depth - 1 else depth
      scanCloseGo s fuel (j + 1) depth2
    else (j, depth)

/-- The closing-bracket scan, entered with enough fuel. -/
def scanClose (s : Str) (j depth : Nat) : Nat × Nat :=
  scanCloseGo s s.length j depth

/-- The marker token the outer loop searches for. -/
def actionMarker : Str := lit "[ACTION:"

/-- One well-bracketed entry: the content between `[ACTION:` (ending at
position `actionStart + 8`) and the matching bracket (the scan stopped at
`j`, the bracket sits at `j - 1`) is trimmed and split at its first comma
into the case-folded action type and the optional parameter string —
src/entrypoints/sidepanel/types.ts, parseActionsFromResponse lines
1318-1330. -/
def entryAt (s : Str) (actionStart j : Nat) : Str × Option Str :=
  let actionContent := jsTrim (strSubstring s (actionStart + 8) (j - 1))
  let firstComma := strIndexOf actionContent [',']
  let actionType :=
    match firstComma with
    | some k =>
      if k > 0 then jsTrim (strSubstring actionContent 0 k)
      else jsTrim actionContent
    | none => jsTrim actionContent
  let params : Option Str :=
    match firstComma with
    | some k =>
      if k > 0 then some (jsTrim (strSubstringFrom actionContent (k + 1)))
      else none
    | none => none
  (jsToLower actionType, params)

/-- src/entrypoints/sidepanel/types.ts, parseActionsFromResponse: the outer
while loop. Each iteration finds the next `[ACTION:` marker, scans to the
matching bracket, splits the content at the first comma into action type
and parameters, parses, and continues at the scan position. The fuel bounds
the iteration count; each iteration advances the position by at least the
marker length, so `s.length + 1` (supplied by the wrapper) is enough. -/
def parseLoopGo (ops : HostOps) (s : Str) : Nat → Nat → List BrowserAction
  | 0, _ => []
  | fuel + 1, i =>
    match strIndexOfFrom s actionMarker i with
    | none => []
    | some actionStart =>
      let sc := scanClose s (actionStart + 8) 1
      let rest := parseLoopGo ops s fuel sc.1
      if sc.2 = 0 then
        match parseAction ops (entryAt s actionStart sc.1).1
            (entryAt s actionStart sc.1).2 with
        | some a => a :: rest
        | none => rest
      else rest

/-- src/entrypoints/sidepanel/types.ts, parseActionsFromResponse. -/
def parseActionsFromResponse (ops : HostOps) (s : Str) : List BrowserAction :=
  parseLoopGo ops s (s.length + 1) 0

/-- Specification scaffold for the per-entry statement: the same scan as
`parseLoopGo`, but collecting the raw (lowercased action type, parameter
string) pairs of every well-bracketed `[ACTION: ...]` entry instead of
parsing them. -/
def entriesGo (s : Str) : Nat → Nat → List (Str × Option Str)
  | 0, _ => []
  | fuel + 1, i =>
    match strIndexOfFrom s actionMarker i with
    | none => []
    | some actionStart =>
      let sc := scanClose s (actionStart + 8) 1
      let rest := entriesGo s fuel sc.1
      if sc.2 = 0 then entryAt s actionStart sc.1 :: rest
      else rest

/-- The raw entries of a response, in scan order. -/
def actionEntries (s : Str) : List (Str × Option Str) :=
  entriesGo s (s.length + 1) 0

/-- The switch-case table of `parseAction`: which action tag each
(lowercased) case label produces, `none` for the default case. -/
def caseTag (t : Str) : Option Str :=
  if t = lit "navigate" ∨ t = lit "goto" ∨ t = lit "open" then
    some (lit "navigate")
  else if t = lit "click" then some (lit "click")
  else if t = lit "doubleclick" then some (lit "click")
  else if t = lit "type" ∨ t = lit "input" then some (lit "type")
  else if t = lit "scroll" then some (lit "scroll")
  else if t = lit "back" then some (lit "back")
  else if t = lit "forward" then some (lit "forward")
  else if t = lit "reload" ∨ t = lit "refresh" then some (lit "reload")
  else if t = lit "newtab" then some (lit "newTab")
  else if t = lit "closetab" then some (lit "closeTab")
  else if t = lit "screenshot" then some (lit "screenshot")
  else if t = lit "gethtml" then some (lit "getHtml")
  else if t = lit "waitforselector" then some (lit "waitForSelector")
  else if t = lit "waitfortext" then some (lit "waitForText")
  else if t = lit "waitfortextgone" then some (lit "waitForTextGone")
  else if t = lit "radio" then some (lit "radio")
  else if t = lit "check" then some (lit "check")
  else if t = lit "uncheck" then some (lit "uncheck")
  else if t = lit "select" then some (lit "select")
  else if t = lit "slider" then some (lit "slider")
  else if t = lit "fillform" then some (lit "fillForm")
  else if t = lit "upload" then some (lit "upload")
  else if t = lit "drag" then some (lit "drag")
  else if t = lit "hover" then some (lit "hover")
  else if t = lit "focus" then some (lit "focus")
  else if t = lit "clickxy" then some (lit "clickXY")
  else if t = lit "handledialog" then some (lit "handleDialog")
  else if t = lit "presskey" ∨ t = lit "press" ∨ t = lit "key" then
    some (lit "pressKey")
  else if t = lit "evaluate" then some (lit "evaluate")
  else if t = lit "getconsole" ∨ t = lit "console" then some (lit "getConsole")
  else if t = lit "getnetwork" ∨ t = lit "network" then some (lit "getNetwork")
  else if t = lit "playwright" then some (lit "playwright")
  else none

/-- File action kind (src/entrypoints/sidepanel/types.ts, interface
FileAction, field `type`). -/
inductive FileOp where
  | create
  | append
deriving DecidableEq

/-- src/entrypoints/sidepanel/types.ts, interface FileAction. -/
structure FileAction where
  type : FileOp
  path : Str
  content : Str
deriving DecidableEq

/-- Case-insensitive literal prefix test (the regex has the `i` flag; `pat`
is given in lowercase). -/
def ciStartsWith (s pat : Str) : Bool := jsToLower (s.take pat.length) == pat

/-- One anchored attempt of the file-block regex
`\[FILE:\s*(create|append),\s*([^,\]]+),\s*([\s\S]*?)\]` at the start of
`r0`. Returns the captured (type, path, content) and the rest of the string
after the match. The regex is deterministic at a fixed start position: the
alternation words are fixed, `[^,\]]+` cannot cross the separating comma,
and the lazy content group stops at the first `]`; the only backtracking,
`\s*` giving one whitespace character back to `[^,\]]+` when the path
segment is all whitespace, is reproduced in `pathCapture`. -/
def fileTypeAt (r2 : Str) : Option (FileOp × Str) :=
  if ciStartsWith r2 (lit "create") then some (.create, r2.drop 6)
  else if ciStartsWith r2 (lit "append") then some (.append, r2.drop 6)
  else none

/-- The `([^,\]]+),` part: the maximal comma-and-bracket-free segment,
which must be nonempty and followed by the separating comma. -/
def filePathSeg (r4 : Str) : Option (Str × Str) :=
  let seg := r4.takeWhile fun c => c != ',' && c != ']'
  if seg = [] then none
  else
    match r4.drop seg.length with
    | c0 :: r6 => if c0 = ',' then some (seg, r6) else none
    | [] => none

/-- The `\s*([\s\S]*?)\]` part: skip whitespace, then the lazy group takes
everything up to the first `]`, which must exist. -/
def fileContentCore (afterWs : Str) : Option (Str × Str) :=
  match afterWs.drop (afterWs.takeWhile fun c => c != ']').length with
  | ']' :: rem => some (afterWs.takeWhile fun c => c != ']', rem)
  | _ => none

/-- Skip the greedy `\s*` and run the content capture. -/
def fileContentAt (r6 : Str) : Option (Str × Str) :=
  fileContentCore (r6.dropWhile jsWs)

/-- The path capture inside the segment: the greedy `\s*` eats the leading
whitespace, except that when the whole segment is whitespace it backtracks
one character so `[^,\]]+` can still match. -/
def pathCaptureOf (seg : Str) : Str :=
  match seg.dropWhile jsWs with
  | [] => match seg.getLast? with | some c => [c] | none => []
  | p => p

def matchFilePrefix (r0 : Str) : Option ((FileOp × Str × Str) × Str) :=
  if ciStartsWith r0 (lit "[file:") then
    match fileTypeAt ((r0.drop 6).dropWhile jsWs) with
    | none => none
    | some (op, r3) =>
      match r3 with
      | c0 :: r4 =>
        if c0 = ',' then
          match filePathSeg r4 with
          | none => none
          | some (seg, r6) =>
            match fileContentAt r6 with
            | none => none
            | some (content, rem) => some ((op, pathCaptureOf seg, content), rem)
        else none
      | [] => none
  else none

/-- The global-regex scan: leftmost match first, resuming after each match
(`regex.exec` in a loop). The fuel bounds the scan steps; every step
consumes at least one character, so `length + 1` (supplied by the wrapper)
is enough. -/
def fileScanGo : Nat → Str → List FileAction
  | 0, _ => []
  | fuel + 1, r =>
    match matchFilePrefix r with
    | some ((op, p, c), rem) =>
      { type := op, path := jsTrim p, content := jsTrim c } :: fileScanGo fuel rem
    | none =>
      match r with
      | [] => []
      | _ :: rest => fileScanGo fuel rest

/-- src/entrypoints/sidepanel/types.ts, parseFileActionsFromResponse. -/
def parseFileActionsFromResponse (s : Str) : List FileAction :=
  fileScanGo (s.length + 1) s

/-- The characters replaced by the sanitizer in executeFileAction. -/
def isPathSep (c : Char) : Bool := c = '/' || c = '\\'

/-- src/entrypoints/sidepanel/types.ts, executeFileAction: the filename
sanitizer `path.replace(/^[\/\\]+/, "").replace(/[\/\\]/g, "_")`. -/
def sanitizeDownloadFilename (path : Str) : Str :=
  (path.dropWhile isPathSep).map fun c => if isPathSep c then '_' else c

/-- A DOM element, carrying an identity and the stamped reference
attribute value (if any). -/
structure Elem where
  eid : Nat
  refAttr : Option Str
deriving DecidableEq

/-- The unanchored match `sel.match(/[eE](\d+)/)` used by the click, type
and evaluate executors: scan left to right for an `e`/`E` immediately
followed by a digit, capture the maximal digit run, and build the
reference id as the lowercase `e` plus the digits. -/
def extractRefAnywhere : Str → Option Str
  | [] => none
  | c :: rest =>
    if (c == 'e' || c == 'E') &&
        (match rest.head? with | some d => d.isDigit | none => false) then
      some ('e' :: rest.takeWhile Char.isDigit)
    else extractRefAnywhere rest

/-- The number of reference-attribute poll attempts made by the click/type
executors: the while loop checks while `Date.now() - start < 3000` and
sleeps 100ms after each miss, so the query runs at elapsed times 0, 100,
..., 2900 — 30 attempts — before the deadline elapses. -/
def pollAttempts : Nat := 30

/-- The polling loop over discrete 100ms ticks: `q t` is the result of
`document.querySelector` on the reference attribute at tick `t`. -/
def pollForRefGo (q : Nat → Option Elem) : Nat → Nat → Option Elem
  | 0, _ => none
  | fuel + 1, t =>
    match q t with
    | some el => some el
    | none => pollForRefGo q fuel (t + 1)

/-- The bounded reference poll of the click/type executors. -/
def pollForRef (q : Nat → Option Elem) : Option Elem :=
  pollForRefGo q pollAttempts 0

/-- Oracles for the DOM lookups the click/type executors perform:
`byRefAttr t r` is the reference-attribute query at poll tick `t`,
`bySelector` is `document.querySelector`, and the two scans are the
Playwright-style `:has-text`/`text=` pass and the clickable-element
text pass of clickElement. -/
structure PageDomOracle where
  byRefAttr : Nat → Str → Option Elem
  bySelector : Str → Option Elem
  pseudoTextScan : Str → Option Elem
  clickableTextScan : Str → Option Elem

/-- Which selector-path stage found the element. -/
inductive FallbackStage where
  | direct
  | pseudoText
  | clickableScan
deriving DecidableEq

/-- How a click/type target was resolved. -/
inductive TargetResolution where
  | viaRef (refId : Str) (result : Option Elem)
  | viaSelector (stage : FallbackStage) (el : Elem)
  | selectorNotFound
deriving DecidableEq

/-- src/entrypoints/sidepanel/types.ts, clickElement (injected function):
trim the target, extract an `e<digits>` pattern from anywhere in it; if one
is present poll for the stamped reference attribute, otherwise try the
direct selector, then the `:has-text`/`text=` scan, then the clickable
text scan. A `viaRef _ none` resolution is reported as the
`Element not found: <refId>` result string. -/
def clickResolve (d : PageDomOracle) (sel : Str) : TargetResolution :=
  let normalizedSel := jsTrim sel
  match extractRefAnywhere normalizedSel with
  | some refId => .viaRef refId (pollForRef fun t => d.byRefAttr t refId)
  | none =>
    match d.bySelector normalizedSel with
    | some el => .viaSelector .direct el
    | none =>
      match d.pseudoTextScan normalizedSel with
      | some el => .viaSelector .pseudoText el
      | none =>
        match d.clickableTextScan normalizedSel with
        | some el => .viaSelector .clickableScan el
        | none => .selectorNotFound

/-- src/entrypoints/sidepanel/types.ts, typeText (injected function): same
reference extraction and poll; a non-reference target goes through a single
direct `document.querySelector(sel)` on the untrimmed target, with no text
fallbacks. -/
def typeResolve (d : PageDomOracle) (sel : Str) : TargetResolution :=
  match extractRefAnywhere (jsTrim sel) with
  | some refId => .viaRef refId (pollForRef fun t => d.byRefAttr t refId)
  | none =>
    match d.bySelector sel with
    | some el => .viaSelector .direct el
    | none => .selectorNotFound

/-- The anchored capture `[eE]\d+` matching a whole string. -/
def isAnchoredRefCore (s : Str) : Option Str :=
  match s with
  | c :: rest =>
    if (c == 'e' || c == 'E') && !rest.isEmpty && rest.all Char.isDigit then
      some (c :: rest)
    else none
  | [] => none

/-- The pattern `^(?:ref:)?([eE]\d+)$` of findElement. -/
def refColonPattern (sel : Str) : Option Str :=
  isAnchoredRefCore (if strStartsWith sel (lit "ref:") then sel.drop 4 else sel)

/-- The `([eE]\d+)"?\]$` part of the bracket patterns: the capture with
its greedy digit run, followed by an optional quote and the final bracket
at the very end. -/
def refCoreTail (r3 : Str) : Option Str :=
  match r3 with
  | c :: rest =>
    if (c == 'e' || c == 'E') && !(rest.takeWhile Char.isDigit).isEmpty &&
        (rest.drop (rest.takeWhile Char.isDigit).length == [']'] ||
          rest.drop (rest.takeWhile Char.isDigit).length == ['"', ']']) then
      some (c :: rest.takeWhile Char.isDigit)
    else none
  | [] => none

/-- The patterns `^\[<attr>[=:]"?([eE]\d+)"?\]$` of findElement. -/
def refBracketPattern (attr : Str) (sel : Str) : Option Str :=
  if strStartsWith sel ('[' :: attr) then
    match sel.drop (attr.length + 1) with
    | sep :: r2 =>
      if sep == '=' || sep == ':' then
        refCoreTail (if r2.head? = some '"' then r2.tail else r2)
      else none
    | [] => none
  else none

/-- src/entrypoints/sidepanel/types.ts, findElement (injected function):
the anchored reference patterns tried in order; the matched capture is
lowercased to form the reference id. -/
def findElementRefId (sel : Str) : Option Str :=
  match refColonPattern sel with
  | some cap => some (jsToLower cap)
  | none =>
    match refBracketPattern (lit "ref") sel with
    | some cap => some (jsToLower cap)
    | none =>
      match refBracketPattern (lit "data-copilot-ref") sel with
      | some cap => some (jsToLower cap)
      | none => none

/-- `document.querySelector` on the stamped reference attribute over a
document modelled as its elements in document order: the first element
whose attribute equals the reference id. -/
def queryRefAttr (doc : List Elem) (refId : Str) : Option Elem :=
  doc.find? fun el => el.refAttr == some refId

/-- The result shape of findElement. -/
structure FindResult where
  found : Bool
  refId : Option Str
deriving DecidableEq

/-- src/entrypoints/sidepanel/types.ts, findElement (injected function):
reference targets are resolved by re-querying the current document for the
stamped attribute value (never through a cached element handle); other
targets go to `document.querySelector`, modelled by the `cssQuery`
oracle. -/
def findElementPage (doc : List Elem) (cssQuery : Str → Option Elem)
    (sel : Str) : FindResult :=
  match findElementRefId sel with
  | some refId => { found := (queryRefAttr doc refId).isSome, refId := some refId }
  | none => { found := (cssQuery sel).isSome, refId := none }

/-- The handler invocation selected by the executeBrowserAction switch,
with the exact arguments the source passes. -/
inductive HandlerCall where
  | navigate (url : Str)
  | clickElement (selector : Str) (doubleClick : Option Bool)
      (button : Option Str) (modifiers : Option (List Str))
  | typeText (selector : Str) (text : Str) (submit : Option Bool)
      (slowly : Option Bool)
  | scroll (direction : Str) (amount : Option Rat)
  | goBack
  | goForward
  | reloadPage
  | openNewTab (url : Option Str)
  | closeCurrentTab
  | takeScreenshot
  | getHtml (selector : Option Str)
  | waitForSelector (selector : Str) (timeout : Option Rat)
  | waitForText (text : Str) (timeout : Option Rat)
  | waitForTextGone (text : Str) (timeout : Option Rat)
  | selectRadio (selector : Str) (value : Option Str)
  | checkElement (selector : Str) (checked : Bool)
  | selectOption (selector : Str) (value : Str)
  | setSlider (selector : Str) (value : Rat)
  | fillForm (fields : List FormField)
  | uploadFile (selector : Str)
  | dragElement (startSelector : Str) (endSelector : Str)
  | hoverElement (selector : Str)
  | focusElement (selector : Str)
  | clickAtCoordinates (x : Rat) (y : Rat) (button : Option Str)
  | handleDialog (accept : Bool) (promptText : Option Str)
  | pressKey (key : Str)
  | evaluateScript (script : Str) (selector : Option Str)
  | getConsoleLogs (level : Option Str)
  | getNetworkRequests (includeStatic : Option Bool)
  | executeViaPlaywright (action : Str) (params : Json)

/-- src/entrypoints/sidepanel/types.ts, executeBrowserAction: the switch
mapping an action to its handler call. The union is exhaustive, so the
`default` branch of the source switch is unreachable. -/
def dispatch : BrowserAction → HandlerCall
  | .navigate url => .navigate url
  | .click sel dc btn mods => .clickElement sel dc btn mods
  | .type sel text submit slowly => .typeText sel text submit slowly
  | .scroll dir amount => .scroll dir amount
  | .back => .goBack
  | .forward => .goForward
  | .reload => .reloadPage
  | .newTab url => .openNewTab url
  | .closeTab => .closeCurrentTab
  | .screenshot => .takeScreenshot
  | .getHtml sel => .getHtml sel
  | .waitForSelector sel timeout => .waitForSelector sel timeout
  | .waitForText text timeout => .waitForText text timeout
  | .waitForTextGone text timeout => .waitForTextGone text timeout
  | .radio sel v => .selectRadio sel v
  | .check sel => .checkElement sel true
  | .uncheck sel => .checkElement sel false
  | .select sel v => .selectOption sel v
  | .slider sel v => .setSlider sel v
  | .fillForm fields => .fillForm fields
  | .upload sel _ => .uploadFile sel
  | .drag s e => .dragElement s e
  | .hover sel => .hoverElement sel
  | .focus sel => .focusElement sel
  | .clickXY x y btn => .clickAtCoordinates x y btn
  | .handleDialog accept p => .handleDialog accept p
  | .pressKey key => .pressKey key
  | .evaluate script sel => .evaluateScript script sel
  | .getConsole level => .getConsoleLogs level
  | .getNetwork inc => .getNetworkRequests inc
  | .playwright action params => .executeViaPlaywright action params

/-- How the chrome.scripting round trip of evaluateScript went: `failed e`
models a thrown error before or during injection (no active tab, page not
scriptable — it propagates to the outer catch of executeBrowserAction),
`noResult` models `results[0]?.result` being undefined, `ran` means the
injected function executed and its return value came back. -/
inductive EvalTransport where
  | failed (e : Str)
  | noResult
  | ran

/-- Oracles for evaluateScript: the injection transport, the two element
lookups of the injected function, the combined construction-plus-call of
`new Function("element", code)` (`Except.error` models a thrown exception,
carrying its message), and `JSON.stringify` (`none` models undefined). -/
structure EvalEnv where
  transport : EvalTransport
  queryRef : Str → Option Elem
  querySel : Str → Option Elem
  runScript : Str → Option Elem → Except Str Json
  stringify : Json → Option Str

/-- src/entrypoints/sidepanel/types.ts, evaluateScript (injected function):
resolve the optional target (reference extraction as in click/type), run
the script with `element` bound, and wrap the outcome; a thrown exception
is caught in the page and becomes the failure string `Eval error: ...`. -/
def evalPageResult (ev : EvalEnv) (code : Str) (sel : Option Str) :
    Except Str Str :=
  let element : Option Elem :=
    match truthyStr sel with
    | some s =>
      match extractRefAnywhere (jsTrim s) with
      | some refId => ev.queryRef refId
      | none => ev.querySel s
    | none => none
  match ev.runScript code element with
  | .ok r => .ok (lit "Evaluated: " ++ ((ev.stringify r).getD (lit "undefined")))
  | .error e => .error (lit "Eval error: " ++ e)

/-- src/entrypoints/sidepanel/types.ts, evaluateScript: the outer wrapper
returning `result.success ? result.message : result.error` (with the
`Evaluate failed` default when no result came back). A transport throw is
re-raised to the caller. -/
def evaluateScriptResult (ev : EvalEnv) (code : Str) (sel : Option Str) :
    Except Str Str :=
  match ev.transport with
  | .failed e => .error e
  | .noResult => .ok (lit "Evaluate failed")
  | .ran =>
    match evalPageResult ev code sel with
    | .ok m => .ok m
    | .error e => .ok e

/-- The executor environment: an oracle giving each handler call either a
result string or a thrown error (`Except.error`, carrying the message), and
the evaluateScript oracles. ensureClientLoggers swallows its own errors and
returns nothing, so it does not appear. -/
structure ExecEnv where
  run : HandlerCall → Except Str Str
  eval : EvalEnv

/-- src/entrypoints/sidepanel/types.ts, executeBrowserAction: dispatch the
action inside the try block; any exception is caught and converted to an
`Error: <message>` result string. evaluateScript is modelled in depth; the
other handlers are oracle calls. -/
def executeBrowserAction (env : ExecEnv) (a : BrowserAction) : Str :=
  let attempt : Except Str Str :=
    match a with
    | .evaluate script selector => evaluateScriptResult env.eval script selector
    | _ => env.run (dispatch a)
  match attempt with
  | .ok s => s
  | .error e => lit "Error: " ++ e

/-- src/unnamed/part_001, sendMessage: the error classification applied to
each action result string. -/
def isErrorResult (r : Str) : Bool :=
  strIncludes r (lit "not found") || strIncludes r (lit "Error") ||
    strIncludes r (lit "error")

/-- The `\w` class of the completion regex. -/
def jsWordChar (c : Char) : Bool := c.isAlphanum || c = '_'

/-- A word-boundary-delimited occurrence of `pat` in `s` (the `\b...\b`
test of the English completion regex). -/
def hasWordBounded (s pat : Str) : Bool :=
  (List.range (s.length + 1)).any fun i =>
    pat.isPrefixOf (s.drop i) &&
    (match i with
      | 0 => true
      | k + 1 => match s.get? k with | some c => !jsWordChar c | none => true) &&
    (match s.get? (i + pat.length) with | some c => !jsWordChar c | none => true)

/-- src/unnamed/part_001, sendMessage: the strict completion-phrase check
run when a response contains no actions (used only for logging — both
branches stop the loop). The two `$`-anchored Japanese alternatives are
suffix tests; the English phrases are word-bounded searches over the
lowercased response. -/
def isCompletionResponse (resp : Str) : Bool :=
  let lower := jsToLower resp
  strIncludes resp (lit "以上で完了") || strIncludes resp (lit "すべて完了") ||
  strIncludes resp (lit "タスク完了") || strIncludes resp (lit "作業が完了") ||
  strIncludes resp (lit "全て完了") ||
  strEndsWith resp (lit "完了です。") || strEndsWith resp (lit "完了しました。") ||
  hasWordBounded lower (lit "all done") ||
  hasWordBounded lower (lit "task completed") ||
  hasWordBounded lower (lit "finished all") ||
  hasWordBounded lower (lit "completed successfully")

/-- Outcome of one continuation round trip (`fetch` of the next response
plus the streamed read): `ok` carries the full streamed text; `httpFail`
is `!continueResponse.ok` (break); `abortError` is a thrown AbortError
(break); `errorKeepResponse` is a non-abort throw before the response
accumulator was reset (the loop continues with the previous response);
`errorPartial` is a non-abort throw during streaming (the loop continues
with the partial text). -/
inductive ContinueOutcome where
  | ok (response : Str)
  | httpFail
  | abortError
  | errorKeepResponse
  | errorPartial (text : Str)

/-- Environment of one send cycle of the autonomous loop
(src/unnamed/part_001, sendMessage): settings and oracles for everything
outside the loop-control logic. `aborted k` is the cancellation signal
observed at the top of iteration `k`; `execResult k i` is the result
string of `executeBrowserAction` for the i-th action of iteration `k`
(the executor never throws, see executeBrowserAction, so the inner catch
of the loop is unreachable); `continueCall k` is the continuation round
trip launched at the end of iteration `k`. -/
structure AgentEnv where
  ops : HostOps
  provider : Str
  operationMode : Str
  maxAgentLoops : Nat
  aborted : Nat → Bool
  execResult : Nat → Nat → Str
  continueCall : Nat → ContinueOutcome

/-- The loop-control state of sendMessage: `loopCount`,
`consecutiveErrors`, `useScreenshotFallback` and the current response
text. Conversation history and page content are accumulated for the LLM
payload only and never influence control flow, so they are left to the
`continueCall` oracle. -/
structure LoopState where
  loopCount : Nat
  consecutiveErrors : Nat
  useScreenshotFallback : Bool
  response : Str

/-- Why the loop ended: the while-guard (`budget` when `loopCount`
reached `maxAgentLoops`, `cancelled` when the abort signal was set), the
zero-actions break (recording what the completion check said), the
non-agent-provider break, or a continuation failure. -/
inductive StopReason where
  | budget
  | cancelled
  | noActions (completionDetected : Bool)
  | chatMode
  | continueHttpFail
  | continueAborted
deriving DecidableEq

/-- Per-executed-cycle record: the number of error-classified results, the
consecutive-error counter and fallback flag after the update, and — for
cycles that went on to gather fresh context — whether that context was
screenshot-augmented. -/
structure CycleRecord where
  errorCount : Nat
  consecutiveAfter : Nat
  fallbackAfter : Bool
  screenshotContext : Option Bool
deriving DecidableEq

/-- src/unnamed/part_001, sendMessage lines 706-725: the consecutive-error
tracking after a cycle. An error cycle increments the counter and, in
hybrid mode at three or more consecutive errors, switches the fallback
flag on; an error-free cycle resets the counter; the flag is never
cleared. -/
def errorTrackingUpdate (mode : Str) (errorCount ce : Nat) (fb : Bool) :
    Nat × Bool :=
  if errorCount > 0 then
    if mode = lit "hybrid" ∧ ce + 1 ≥ 3 ∧ fb = false then (ce + 1, true)
    else (ce + 1, fb)
  else (0, fb)

/-- src/unnamed/part_001, sendMessage: the autonomous while loop. The fuel
equals `maxAgentLoops - loopCount` (the wrapper passes `maxAgentLoops` with
`loopCount = 0`, and every executed cycle increments `loopCount` and
decrements the fuel), so fuel exhaustion is exactly the failure of the
guard `loopCount < maxAgentLoops`; the guard checks the abort signal
second. A zero-action response breaks before executing anything; an
executed cycle collects the result strings, counts error-classified ones,
applies the consecutive-error update, stops for non-agent providers, and
otherwise gathers context (screenshot-augmented iff the fallback flag is
set) and runs the continuation round trip. -/
def agentLoopGo (env : AgentEnv) :
    Nat → LoopState → Nat → LoopState × StopReason × List CycleRecord
  | 0, s, _ => (s, .budget, [])
  | fuel + 1, s, k =>
    if env.aborted k then (s, .cancelled, [])
    else
      let actions := parseActionsFromResponse env.ops s.response
      if actions.length = 0 then
        (s, .noActions (isCompletionResponse s.response), [])
      else
        let results := (List.range actions.length).map (env.execResult k)
        let errorCount := results.countP isErrorResult
        let u := errorTrackingUpdate env.operationMode errorCount
          s.consecutiveErrors s.useScreenshotFallback
        let s2 : LoopState :=
          { loopCount := s.loopCount + 1, consecutiveErrors := u.1,
            useScreenshotFallback := u.2, response := s.response }
        if env.provider ≠ lit "copilot-agent" then
          (s2, .chatMode, [⟨errorCount, u.1, u.2, none⟩])
        else
          let rec0 : CycleRecord := ⟨errorCount, u.1, u.2, some u.2⟩
          match env.continueCall k with
          | .httpFail => (s2, .continueHttpFail, [rec0])
          | .abortError => (s2, .continueAborted, [rec0])
          | .ok r =>
            let res := agentLoopGo env fuel { s2 with response := r } (k + 1)
            (res.1, res.2.1, rec0 :: res.2.2)
          | .errorKeepResponse =>
            let res := agentLoopGo env fuel s2 (k + 1)
            (res.1, res.2.1, rec0 :: res.2.2)
          | .errorPartial p =>
            let res := agentLoopGo env fuel { s2 with response := p } (k + 1)
            (res.1, res.2.1, rec0 :: res.2.2)

/-- The outcome of one send cycle. -/
structure LoopOutcome where
  final : LoopState
  reason : StopReason
  trace : List CycleRecord
  maxLoopsWarning : Bool

/-- src/unnamed/part_001, sendMessage: run the autonomous loop from the
fresh per-send state (counter zero, fallback preset only in screenshot
mode) and emit the max-loops warning exactly when the final `loopCount`
reached `maxAgentLoops`. -/
def runAgentLoop (env : AgentEnv) (initialResponse : Str) : LoopOutcome :=
  let s0 : LoopState :=
    { loopCount := 0, consecutiveErrors := 0,
      useScreenshotFallback := decide (env.operationMode = lit "screenshot"),
      response := initialResponse }
  let res := agentLoopGo env env.maxAgentLoops s0 0
  { final := res.1, reason := res.2.1, trace := res.2.2,
    maxLoopsWarning := decide (env.maxAgentLoops ≤ res.1.loopCount) }

/-- Whether an action is the evaluate variant (whose handler is modelled in
depth rather than by the handler oracle). -/
def isEvaluateAction : BrowserAction → Bool
  | .evaluate _ _ => true
  | _ => false

/-- A DOM oracle under which the ordinary selector `#page2-main` would be
found by direct lookup, used to exhibit that the executors never consult
the selector path for targets containing an `e<digits>` substring. -/
def page2Dom : PageDomOracle :=
  { byRefAttr := fun _ _ => none
    bySelector := fun s => if s = lit "#page2-main" then some ⟨1, none⟩ else none
    pseudoTextScan := fun _ => none
    clickableTextScan := fun _ => none }

/-- Concrete loop environment for the budget witness: agent provider, no
cancellation, every response carries one action. -/
def budgetEnv : AgentEnv :=
  { ops := trivialHost, provider := lit "copilot-agent"
    operationMode := lit "text", maxAgentLoops := 3
    aborted := fun _ => false
    execResult := fun _ _ => lit "ok"
    continueCall := fun _ => .ok (lit "[ACTION: back]") }

/-- An executor environment whose handlers and injection all throw (as when
no active tab exists). -/
def execEnvThrow : ExecEnv :=
  { run := fun _ => .error (lit "No active tab found")
    eval :=
      { transport := .failed (lit "No active tab found")
        queryRef := fun _ => none
        querySel := fun _ => none
        runScript := fun _ _ => .error (lit "boom")
        stringify := fun _ => none } }

/-- An executor environment whose injection succeeds but whose evaluate
script throws. -/
def execEnvBoom : ExecEnv :=
  { run := fun _ => .ok (lit "ok")
    eval :=
      { transport := .ran
        queryRef := fun _ => none
        querySel := fun _ => none
        runScript := fun _ _ => .error (lit "boom")
        stringify := fun _ => none } }

/-- The per-cycle consistency of a loop trace: each record results from the
consecutive-error update applied to the incoming counter and flag, its
recorded context choice (when present) equals the flag after the update,
and the rest of the trace continues from the updated values. -/
def traceChainOK (mode : Str) : Nat → Bool → List CycleRecord → Prop
  | _, _, [] => True
  | ce, fb, r :: rest =>
    (r.consecutiveAfter, r.fallbackAfter) =
        errorTrackingUpdate mode r.errorCount ce fb ∧
    (r.screenshotContext = none ∨ r.screenshotContext = some r.fallbackAfter) ∧
    traceChainOK mode r.consecutiveAfter r.fallbackAfter rest

/-- Concrete loop environment for the hybrid-fallback witness: three error
cycles, then an error-free one, then a response without actions. -/
def hybridEnv : AgentEnv :=
  { ops := trivialHost, provider := lit "copilot-agent"
    operationMode := lit "hybrid", maxAgentLoops := 5
    aborted := fun _ => false
    execResult := fun k _ => if k < 3 then lit "Error: x" else lit "ok"
    continueCall := fun k =>
      if k < 3 then .ok (lit "[ACTION: back]") else .ok (lit "done") }

end CopilotBridge

namespace CopilotBridge

/-! ### Helper lemmas -/

theorem mem_jsTrim (s : Str) (c : Char) (h : c ∈ jsTrim s) : c ∈ s := by
  simp only [jsTrim, List.mem_reverse] at h
  have h1 := (List.dropWhile_sublist jsWs).subset h
  rw [List.mem_reverse] at h1
  exact (List.dropWhile_sublist jsWs).subset h1

theorem mem_takeWhile_sat {p : Char → Bool} {l : Str} {c : Char}
    (h : c ∈ l.takeWhile p) : p c = true := by
  induction l with
  | nil => simp [List.takeWhile] at h
  | cons a as ih =>
    rw [List.takeWhile_cons] at h
    by_cases hp : p a
    · simp [hp] at h
      rcases h with rfl | h
      · exact hp
      · exact ih h
    · simp [hp] at h

/-! ### C9 — download filename sanitization -/

/-- C9: every character of the sanitized download filename is neither `/`
nor `\`: executeFileAction strips leading separators and replaces the rest
with underscores, so the filename sent with the download request never
contains a path separator. -/
theorem c9_filename_sanitized (path : Str) :
    ∀ c ∈ sanitizeDownloadFilename path, c ≠ '/' ∧ c ≠ '\\' := by
  intro c hc
  simp only [sanitizeDownloadFilename, List.mem_map] at hc
  obtain ⟨a, _, rfl⟩ := hc
  by_cases h : isPathSep a
  · simp [h]
  · simp only [if_neg h]
    simpa [isPathSep] using h

/-- C9 witness: the sanitizer output for the traversal path `../../x`
contains the underscore replacing its separators, and that character is not
a separator. -/
theorem c9_filename_sanitized_witness :
    sanitizeDownloadFilename (lit "../../x") = lit ".._.._x" ∧
      ('_' ≠ '/' ∧ '_' ≠ '\\') :=
  ⟨by decide, c9_filename_sanitized (lit "../../x") '_' (by decide)⟩

/-! ### C10 — file-block content stops at the first closing bracket -/

theorem fileContentAt_no_bracket {r6 content rem : Str}
    (h : fileContentAt r6 = some (content, rem)) : ']' ∉ content := by
  intro hc
  unfold fileContentAt fileContentCore at h
  split at h
  · simp only [Option.some.injEq, Prod.mk.injEq] at h
    obtain ⟨rfl, rfl⟩ := h
    exact absurd (mem_takeWhile_sat hc) (by decide)
  · exact Option.noConfusion h

theorem matchFilePrefix_content {r : Str} {op : FileOp} {p c rem : Str}
    (h : matchFilePrefix r = some ((op, p, c), rem)) : ']' ∉ c := by
  unfold matchFilePrefix at h
  repeat any_goals split at h
  all_goals try exact Option.noConfusion h
  simp only [Option.some.injEq, Prod.mk.injEq] at h
  obtain ⟨⟨h1, h2, h3⟩, h4⟩ := h
  subst h3
  exact fileContentAt_no_bracket (by assumption)

theorem mem_fileScanGo {fuel : Nat} {r : Str} {fa : FileAction}
    (h : fa ∈ fileScanGo fuel r) : ']' ∉ fa.content := by
  induction fuel generalizing r with
  | zero => simp [fileScanGo] at h
  | succ n ih =>
    simp only [fileScanGo] at h
    cases hmp : matchFilePrefix r with
    | some res =>
      obtain ⟨⟨op, p, c⟩, rem⟩ := res
      rw [hmp] at h
      simp only [List.mem_cons] at h
      rcases h with rfl | h
      · intro hc
        exact matchFilePrefix_content hmp (mem_jsTrim c ']' hc)
      · exact ih h
    | none =>
      rw [hmp] at h
      cases r with
      | nil => simp at h
      | cons hd tl => exact ih h

/-- C10: every `[FILE: create|append, path, content]` block parsed from a
response has a content field free of `]` — the lazy regex ends the block at
the first closing bracket it meets, with no depth counting. -/
theorem c10_file_content_no_bracket (s : Str) :
    ∀ fa ∈ parseFileActionsFromResponse s, ']' ∉ fa.content := by
  intro fa h
  exact mem_fileScanGo h

/-- C10 witness: a block whose intended content continues past a `]` is
truncated at that bracket, and the theorem applies to the parsed action. -/
theorem c10_file_content_no_bracket_witness :
    parseFileActionsFromResponse (lit "[FILE: create, a.txt, x ] y]") =
      [{ type := .create, path := lit "a.txt", content := lit "x" }] ∧
    ']' ∉ (FileAction.mk .create (lit "a.txt") (lit "x")).content :=
  ⟨by decide,
    c10_file_content_no_bracket (lit "[FILE: create, a.txt, x ] y]")
      (FileAction.mk .create (lit "a.txt") (lit "x")) (by decide)⟩

/-! ### C8 — reference resolution is idempotent and handle-free -/

/-- C8: (1) the result of findElement depends only on the current document
and the target, so resolving the same ref at two instants with no
intervening DOM mutation gives the same result; (2) an element returned by
the reference-attribute query actually carries the requested reference id,
never a different one; (3) a stale ref — no element in the current document
carries the attribute — resolves to not-found. -/
theorem c8_ref_resolution_idempotent :
    (∀ (history : Nat → List Elem) (css : Str → Option Elem) (sel : Str)
        (t₁ t₂ : Nat), history t₁ = history t₂ →
        findElementPage (history t₁) css sel = findElementPage (history t₂) css sel)
    ∧ (∀ (doc : List Elem) (refId : Str) (el : Elem),
        queryRefAttr doc refId = some el → el.refAttr = some refId)
    ∧ (∀ (doc : List Elem) (css : Str → Option Elem) (sel refId : Str),
        findElementRefId sel = some refId →
        (∀ el ∈ doc, el.refAttr ≠ some refId) →
        findElementPage doc css sel = { found := false, refId := some refId }) := by
  refine ⟨?_, ?_, ?_⟩
  · intro history css sel t₁ t₂ h
    rw [h]
  · intro doc refId el h
    have hp := List.find?_some h
    simpa using hp
  · intro doc css sel refId href hstale
    have hnone : queryRefAttr doc refId = none := by
      apply List.find?_eq_none.mpr
      intro el hel
      simpa using hstale el hel
    simp [findElementPage, href, hnone]

/-- C8 witness: a one-element document with ref `e1`. Resolving `ref:e1`
at two instants of an unchanged DOM agrees; the stored element carries
exactly `e1`; and the stale ref `e9` resolves to not-found. -/
theorem c8_ref_resolution_idempotent_witness :
    findElementPage [Elem.mk 0 (some (lit "e1"))] (fun _ => none) (lit "ref:e1") =
      findElementPage [Elem.mk 0 (some (lit "e1"))] (fun _ => none) (lit "ref:e1")
    ∧ (Elem.mk 0 (some (lit "e1"))).refAttr = some (lit "e1")
    ∧ findElementPage [Elem.mk 0 (some (lit "e1"))] (fun _ => none) (lit "e9") =
      { found := false, refId := some (lit "e9") } :=
  ⟨c8_ref_resolution_idempotent.1 (fun _ => [Elem.mk 0 (some (lit "e1"))])
      (fun _ => none) (lit "ref:e1") 0 1 rfl,
    c8_ref_resolution_idempotent.2.1 [Elem.mk 0 (some (lit "e1"))] (lit "e1") _
      (by decide),
    c8_ref_resolution_idempotent.2.2 [Elem.mk 0 (some (lit "e1"))] (fun _ => none)
      (lit "e9") (lit "e9") (by decide) (by decide)⟩

/-! ### C3 — target resolution in the click and type executors -/

theorem digit_toLower (c : Char) (h : c.isDigit = true) : c.toLower = c := by
  simp only [Char.isDigit, Bool.and_eq_true, decide_eq_true_eq] at h
  have h2 : c.val.toNat ≤ 57 := h.2
  unfold Char.toLower
  rw [if_neg]
  rintro ⟨ha, -⟩
  simp only [Char.toNat] at ha
  omega

theorem digit_not_ws (c : Char) (h : c.isDigit = true) : jsWs c = false := by
  by_contra hw
  simp only [Bool.not_eq_false, jsWs, Bool.or_eq_true, decide_eq_true_eq] at hw
  rcases hw with ((((h1 | h2) | h3) | h4) | h5) | h6 <;> subst_vars <;>
    exact absurd h (by decide)

theorem dropWhile_eq_self_of {p : Char → Bool} {l : Str}
    (h : ∀ c ∈ l, p c = false) : l.dropWhile p = l := by
  cases l with
  | nil => rfl
  | cons a as =>
    rw [List.dropWhile_cons, if_neg]
    simp [h a (by simp)]

theorem jsTrim_eq_self {s : Str} (h : ∀ c ∈ s, jsWs c = false) : jsTrim s = s := by
  unfold jsTrim
  rw [dropWhile_eq_self_of h, dropWhile_eq_self_of (by simpa using h),
    List.reverse_reverse]

theorem takeWhile_append_all {p : Char → Bool} {l t : Str}
    (hl : ∀ x ∈ l, p x = true) (ht : ∀ c, t.head? = some c → p c = false) :
    (l ++ t).takeWhile p = l := by
  induction l with
  | nil =>
    cases t with
    | nil => rfl
    | cons c r =>
      simp [List.takeWhile_cons, ht c rfl]
  | cons a as ih =>
    rw [List.cons_append, List.takeWhile_cons, if_pos (hl a (by simp)),
      ih (fun x hx => hl x (by simp [hx]))]

theorem extractRef_skip_nonE (x : Char) (rest : Str)
    (hx : (x == 'e' || x == 'E') = false) :
    extractRefAnywhere (x :: rest) = extractRefAnywhere rest := by
  conv_lhs => rw [extractRefAnywhere]
  rw [if_neg]
  simp [hx]

theorem extractRef_skip_nonDigit (x y : Char) (rest : Str)
    (hy : y.isDigit = false) :
    extractRefAnywhere (x :: y :: rest) = extractRefAnywhere (y :: rest) := by
  conv_lhs => rw [extractRefAnywhere]
  rw [if_neg]
  simp [hy]

theorem extractRef_at_core {c : Char} {digits tail : Str}
    (hc : (c == 'e' || c == 'E') = true) (hd : digits ≠ [])
    (hall : ∀ x ∈ digits, x.isDigit = true)
    (htail : ∀ x, tail.head? = some x → x.isDigit = false) :
    extractRefAnywhere (c :: (digits ++ tail)) = some ('e' :: digits) := by
  cases digits with
  | nil => exact absurd rfl hd
  | cons d ds =>
    conv_lhs => rw [extractRefAnywhere]
    rw [if_pos]
    · rw [takeWhile_append_all hall htail]
    · simp only [List.cons_append, List.head?, hc, Bool.true_and]
      exact hall d (by simp)

theorem extractRef_append_nonE (pre rest : Str)
    (hpre : ∀ x ∈ pre, (x == 'e' || x == 'E') = false) :
    extractRefAnywhere (pre ++ rest) = extractRefAnywhere rest := by
  induction pre with
  | nil => rfl
  | cons a as ih =>
    rw [List.cons_append, extractRef_skip_nonE a _ (hpre a (by simp)),
      ih fun x hx => hpre x (by simp [hx])]

theorem isAnchoredRefCore_some {s cap : Str}
    (h : isAnchoredRefCore s = some cap) :
    ∃ c rest, s = c :: rest ∧ cap = c :: rest ∧
      (c == 'e' || c == 'E') = true ∧ rest ≠ [] ∧
      ∀ x ∈ rest, x.isDigit = true := by
  unfold isAnchoredRefCore at h
  split at h
  case h_2 => exact Option.noConfusion h
  case h_1 c rest =>
    split_ifs at h with hcond
    simp only [Bool.and_eq_true] at hcond
    obtain ⟨⟨hc, hne⟩, hall⟩ := hcond
    refine ⟨c, rest, rfl, (Option.some.inj h).symm, hc, ?_, List.all_eq_true.mp hall⟩
    intro hemp
    rw [hemp] at hne
    simp at hne

theorem jsToLower_core {c : Char} {rest : Str}
    (hc : (c == 'e' || c == 'E') = true)
    (hall : ∀ x ∈ rest, x.isDigit = true) :
    jsToLower (c :: rest) = 'e' :: rest := by
  unfold jsToLower
  rw [List.map_cons]
  have h1 : c.toLower = 'e' := by
    rcases (show c = 'e' ∨ c = 'E' by simpa using hc) with rfl | rfl <;> decide
  have h2 : rest.map Char.toLower = rest := by
    induction rest with
    | nil => rfl
    | cons a as ih =>
      rw [List.map_cons, digit_toLower a (hall a (by simp)),
        ih fun x hx => hall x (by simp [hx])]
  rw [h1, h2]

theorem refColon_extract {sel cap : Str}
    (h : refColonPattern sel = some cap) :
    extractRefAnywhere (jsTrim sel) = some (jsToLower cap) := by
  unfold refColonPattern at h
  split_ifs at h with hpre
  · obtain ⟨c, rest, hs, hcap, hc, hne, hall⟩ := isAnchoredRefCore_some h
    obtain ⟨t, ht⟩ :=
      List.isPrefixOf_iff_prefix.mp (show (lit "ref:").isPrefixOf sel = true from hpre)
    have hdrop : sel.drop 4 = t := by
      rw [← ht]
      exact List.drop_left (lit "ref:") t
    rw [hdrop] at hs
    subst hs
    have hsel : sel = lit "ref:" ++ (c :: rest) := ht.symm
    subst hcap
    have hnw : ∀ ch ∈ sel, jsWs ch = false := by
      rw [hsel]
      intro ch hch
      rcases List.mem_append.mp hch with h1 | h1
      · exact (by decide : ∀ x ∈ lit "ref:", jsWs x = false) ch h1
      · rcases List.mem_cons.mp h1 with rfl | h2
        · rcases (show ch = 'e' ∨ ch = 'E' by simpa using hc) with rfl | rfl <;> decide
        · exact digit_not_ws ch (hall ch h2)
    rw [jsTrim_eq_self hnw, hsel, jsToLower_core hc hall]
    show extractRefAnywhere ('r' :: 'e' :: 'f' :: ':' :: (c :: rest)) =
      some ('e' :: rest)
    rw [extractRef_skip_nonE 'r' _ (by decide),
      extractRef_skip_nonDigit 'e' 'f' _ (by decide),
      extractRef_skip_nonE 'f' _ (by decide),
      extractRef_skip_nonE ':' _ (by decide)]
    have hcore : extractRefAnywhere (c :: (rest ++ [])) = some ('e' :: rest) :=
      extractRef_at_core hc hne hall (fun x hx => by simp at hx)
    simpa using hcore
  · obtain ⟨c, rest, hs, hcap, hc, hne, hall⟩ := isAnchoredRefCore_some h
    subst hcap
    have hnw : ∀ ch ∈ sel, jsWs ch = false := by
      rw [hs]
      intro ch hch
      rcases List.mem_cons.mp hch with rfl | h2
      · rcases (show ch = 'e' ∨ ch = 'E' by simpa using hc) with rfl | rfl <;> decide
      · exact digit_not_ws ch (hall ch h2)
    rw [jsTrim_eq_self hnw, hs, jsToLower_core hc hall]
    have hcore : extractRefAnywhere (c :: (rest ++ [])) = some ('e' :: rest) :=
      extractRef_at_core hc hne hall (fun x hx => by simp at hx)
    simpa using hcore

theorem refCoreTail_some {r3 cap : Str} (h : refCoreTail r3 = some cap) :
    ∃ c digits tail, r3 = c :: (digits ++ tail) ∧ cap = c :: digits ∧
      (c == 'e' || c == 'E') = true ∧ digits ≠ [] ∧
      (∀ x ∈ digits, x.isDigit = true) ∧ (tail = [']'] ∨ tail = ['"', ']']) := by
  unfold refCoreTail at h
  split at h
  case h_2 => exact Option.noConfusion h
  case h_1 c rest =>
    split_ifs at h with hcond
    simp only [Bool.and_eq_true] at hcond
    obtain ⟨⟨hc, hne⟩, htl⟩ := hcond
    rw [Bool.or_eq_true] at htl
    refine ⟨c, rest.takeWhile Char.isDigit,
      rest.drop (rest.takeWhile Char.isDigit).length, ?_,
      (Option.some.inj h).symm, hc, ?_, fun x hx => mem_takeWhile_sat hx, ?_⟩
    · have hpfx : rest.takeWhile Char.isDigit <+: rest :=
        List.takeWhile_prefix Char.isDigit
      obtain ⟨t, ht⟩ := hpfx
      have hdr := List.drop_left (rest.takeWhile Char.isDigit) t
      rw [ht] at hdr
      rw [hdr, ht]
    · intro hemp
      rw [hemp] at hne
      simp at hne
    · rcases htl with h1 | h1
      · exact Or.inl (by simpa using h1)
      · exact Or.inr (by simpa using h1)

theorem refBracketPattern_some {attr sel cap : Str}
    (h : refBracketPattern attr sel = some cap) :
    ∃ sep quote c digits tail,
      sel = '[' :: (attr ++ sep :: (quote ++ (c :: (digits ++ tail)))) ∧
      cap = c :: digits ∧ (sep = '=' ∨ sep = ':') ∧
      (quote = [] ∨ quote = ['"']) ∧ (c == 'e' || c == 'E') = true ∧
      digits ≠ [] ∧ (∀ x ∈ digits, x.isDigit = true) ∧
      (tail = [']'] ∨ tail = ['"', ']']) := by
  unfold refBracketPattern at h
  split_ifs at h with hpre
  · obtain ⟨t, ht⟩ := List.isPrefixOf_iff_prefix.mp
      (show ('[' :: attr).isPrefixOf sel = true from hpre)
    have hdrop : sel.drop (attr.length + 1) = t := by
      rw [← ht]
      have hlen : ('[' :: attr).length = attr.length + 1 := by simp
      rw [← hlen, List.drop_left]
    rw [hdrop] at h
    split at h
    next sep r2 =>
      split_ifs at h with hsep hq
      · cases r2 with
        | nil => simp at hq
        | cons q qs =>
          have hqq : q = '"' := by simpa using hq
          subst hqq
          simp only [List.tail_cons] at h
          obtain ⟨c, digits, tail, h3, hcap, hc, hne, hall, htl⟩ :=
            refCoreTail_some h
          refine ⟨sep, ['"'], c, digits, tail, ?_, hcap,
            by simpa using hsep, Or.inr rfl, hc, hne, hall, htl⟩
          rw [← ht, h3]
          rfl
      · obtain ⟨c, digits, tail, h3, hcap, hc, hne, hall, htl⟩ :=
          refCoreTail_some h
        refine ⟨sep, [], c, digits, tail, ?_, hcap,
          by simpa using hsep, Or.inl rfl, hc, hne, hall, htl⟩
        rw [← ht, h3]
        rfl
    next => exact Option.noConfusion h

theorem refBracket_extract {attr sel cap : Str}
    (h : refBracketPattern attr sel = some cap)
    (hattrW : ∀ x ∈ attr, jsWs x = false)
    (pre : Str) (hpre : '[' :: attr = pre ++ ['e', 'f'])
    (hpreE : ∀ x ∈ pre, (x == 'e' || x == 'E') = false) :
    extractRefAnywhere (jsTrim sel) = some (jsToLower cap) := by
  obtain ⟨sep, quote, c, digits, tail, hsel, hcap, hsep, hq, hc, hne, hall, htl⟩ :=
    refBracketPattern_some h
  subst hcap
  have hnw : ∀ ch ∈ sel, jsWs ch = false := by
    rw [hsel]
    intro ch hch
    simp only [List.mem_cons, List.mem_append] at hch
    rcases hch with rfl | hch
    · decide
    rcases hch with hch | hch
    · exact hattrW ch hch
    rcases hch with rfl | hch
    · rcases hsep with rfl | rfl <;> decide
    rcases hch with hch | hch
    · rcases hq with rfl | rfl
      · simp at hch
      · rcases (by simpa using hch : ch = '"') with rfl
        decide
    rcases hch with rfl | hch
    · rcases (show ch = 'e' ∨ ch = 'E' by simpa using hc) with rfl | rfl <;> decide
    rcases hch with hch | hch
    · exact digit_not_ws ch (hall ch hch)
    · rcases htl with rfl | rfl
      · rcases (by simpa using hch : ch = ']') with rfl
        decide
      · rcases (by simpa using hch : ch = '"' ∨ ch = ']') with rfl | rfl <;> decide
  rw [jsTrim_eq_self hnw, hsel, jsToLower_core hc hall]
  have hform : '[' :: (attr ++ sep :: (quote ++ (c :: (digits ++ tail)))) =
      pre ++ 'e' :: 'f' :: (('f' :: sep :: quote).tail ++ (c :: (digits ++ tail))) := by
    rw [show '[' :: (attr ++ sep :: (quote ++ (c :: (digits ++ tail)))) =
        ('[' :: attr) ++ (sep :: (quote ++ (c :: (digits ++ tail)))) from rfl, hpre]
    simp [List.append_assoc]
  rw [hform, extractRef_append_nonE pre _ hpreE,
    extractRef_skip_nonDigit 'e' 'f' _ (by decide)]
  have hfq : ∀ x ∈ 'f' :: sep :: quote, (x == 'e' || x == 'E') = false := by
    intro x hx
    rcases List.mem_cons.mp hx with rfl | hx
    · decide
    rcases List.mem_cons.mp hx with rfl | hx
    · rcases hsep with rfl | rfl <;> decide
    · rcases hq with rfl | rfl
      · simp at hx
      · rcases (by simpa using hx : x = '"') with rfl
        decide
  have htailD : ∀ x, tail.head? = some x → x.isDigit = false := by
    intro x hx
    rcases htl with rfl | rfl
    · rcases (by simpa using hx : ']' = x) with rfl
      decide
    · rcases (by simpa using hx : '"' = x) with rfl
      decide
  rw [show ('f' :: (('f' :: sep :: quote).tail ++ (c :: (digits ++ tail)))) =
      ('f' :: sep :: quote) ++ (c :: (digits ++ tail)) from rfl,
    extractRef_append_nonE _ _ hfq]
  exact extractRef_at_core hc hne hall htailD

theorem findElementRefId_extract {sel refId : Str}
    (h : findElementRefId sel = some refId) :
    extractRefAnywhere (jsTrim sel) = some refId := by
  unfold findElementRefId at h
  cases h1 : refColonPattern sel with
  | some cap =>
    rw [h1] at h
    obtain rfl := Option.some.inj h
    exact refColon_extract h1
  | none =>
    rw [h1] at h
    cases h2 : refBracketPattern (lit "ref") sel with
    | some cap =>
      rw [h2] at h
      obtain rfl := Option.some.inj h
      exact refBracket_extract h2 (by decide) ['[', 'r'] (by decide) (by decide)
    | none =>
      rw [h2] at h
      cases h3 : refBracketPattern (lit "data-copilot-ref") sel with
      | some cap =>
        rw [h3] at h
        obtain rfl := Option.some.inj h
        exact refBracket_extract h3 (by decide) (lit "[data-copilot-r")
          (by decide) (by decide)
      | none =>
        rw [h3] at h
        exact Option.noConfusion h

theorem pollForRefGo_none_iff (q : Nat → Option Elem) :
    ∀ (n t : Nat), (pollForRefGo q n t = none ↔ ∀ i < n, q (t + i) = none) := by
  intro n
  induction n with
  | zero => intro t; simp [pollForRefGo]
  | succ m ih =>
    intro t
    simp only [pollForRefGo]
    cases hq : q t with
    | some el =>
      constructor
      · intro hfalse; exact Option.noConfusion hfalse
      · intro hall
        have h0 := hall 0 (Nat.succ_pos m)
        rw [Nat.add_zero, hq] at h0
        exact Option.noConfusion h0
    | none =>
      rw [ih (t + 1)]
      constructor
      · intro hrec i hi
        cases i with
        | zero => simpa using hq
        | succ j =>
          have := hrec j (by omega)
          rw [show t + (j + 1) = t + 1 + j by omega]
          exact this
      · intro hall i hi
        have := hall (i + 1) (by omega)
        rw [show t + 1 + i = t + (i + 1) by omega]
        exact this

theorem pollForRef_none_iff (q : Nat → Option Elem) :
    pollForRef q = none ↔ ∀ t < pollAttempts, q t = none := by
  unfold pollForRef
  rw [pollForRefGo_none_iff]
  constructor <;> intro h i hi <;> simpa using h i hi

/-- C3 counterexample: the ordinary CSS selector `#page2-main` matches none
of the anchored reference patterns of findElement, yet the click and type
executors resolve it by reference-attribute lookup (extracting `e2` from
`page2`) and report `Element not found: e2` after the poll — the direct
selector lookup, which would have found the element, is never consulted. -/
theorem c3_nonref_selector_uses_ref_lookup :
    findElementRefId (lit "#page2-main") = none ∧
    page2Dom.bySelector (jsTrim (lit "#page2-main")) = some (Elem.mk 1 none) ∧
    clickResolve page2Dom (lit "#page2-main") = .viaRef (lit "e2") none ∧
    typeResolve page2Dom (lit "#page2-main") = .viaRef (lit "e2") none := by
  decide

/-- C3 (amended): the click and type executors treat a target as a
reference exactly when the trimmed target contains an `e<digits>` substring
anywhere (the unanchored `/[eE](\d+)/` match), a strictly wider class than
the anchored reference patterns — every target matching the spec reference
pattern is ref-resolved with the same id. A reference target is polled for
the stamped attribute over 30 ticks of about 100ms (about 3000ms) and
resolves to not-found exactly when every poll misses; a target with no such
substring is resolved through the selector stages (direct lookup, then for
click the text fallbacks), never by reference-attribute lookup. -/
theorem c3_amended_ref_extraction_resolution (d : PageDomOracle) (sel : Str) :
    (∀ refId, extractRefAnywhere (jsTrim sel) = some refId →
      clickResolve d sel = .viaRef refId (pollForRef fun t => d.byRefAttr t refId) ∧
      typeResolve d sel = .viaRef refId (pollForRef fun t => d.byRefAttr t refId) ∧
      (pollForRef (fun t => d.byRefAttr t refId) = none ↔
        ∀ t < pollAttempts, d.byRefAttr t refId = none)) ∧
    (extractRefAnywhere (jsTrim sel) = none →
      ((∃ stage el, clickResolve d sel = .viaSelector stage el) ∨
        clickResolve d sel = .selectorNotFound) ∧
      ((∃ el, typeResolve d sel = .viaSelector .direct el) ∨
        typeResolve d sel = .selectorNotFound)) ∧
    (∀ refId, findElementRefId sel = some refId →
      extractRefAnywhere (jsTrim sel) = some refId) := by
  refine ⟨?_, ?_, ?_⟩
  · intro refId h
    refine ⟨by simp [clickResolve, h], by simp [typeResolve, h],
      pollForRef_none_iff _⟩
  · intro h
    constructor
    · simp only [clickResolve, h]
      cases h1 : d.bySelector (jsTrim sel) with
      | some el => exact Or.inl ⟨.direct, el, by simp [h1]⟩
      | none =>
        cases h2 : d.pseudoTextScan (jsTrim sel) with
        | some el => exact Or.inl ⟨.pseudoText, el, by simp [h1, h2]⟩
        | none =>
          cases h3 : d.clickableTextScan (jsTrim sel) with
          | some el => exact Or.inl ⟨.clickableScan, el, by simp [h1, h2, h3]⟩
          | none => exact Or.inr (by simp [h1, h2, h3])
    · simp only [typeResolve, h]
      cases h1 : d.bySelector sel with
      | some el => exact Or.inl ⟨el, by simp [h1]⟩
      | none => exact Or.inr (by simp [h1])
  · intro refId h
    exact findElementRefId_extract h

/-- C3 witness: the spec ref target `ref:e1` is polled and, with a DOM that
never exposes the attribute, every poll misses; and the non-ref selector
`#btn` goes through the selector stages. -/
theorem c3_amended_ref_extraction_resolution_witness :
    clickResolve page2Dom (lit "ref:e1") =
      .viaRef (lit "e1") (pollForRef fun t => page2Dom.byRefAttr t (lit "e1")) ∧
    (pollForRef (fun t => page2Dom.byRefAttr t (lit "e1")) = none ↔
      ∀ t < pollAttempts, page2Dom.byRefAttr t (lit "e1") = none) ∧
    ((∃ stage el, clickResolve page2Dom (lit "#btn") = .viaSelector stage el) ∨
      clickResolve page2Dom (lit "#btn") = .selectorNotFound) ∧
    extractRefAnywhere (jsTrim (lit "ref:e1")) = some (lit "e1") :=
  ⟨((c3_amended_ref_extraction_resolution page2Dom (lit "ref:e1")).1
      (lit "e1") (by decide)).1,
    ((c3_amended_ref_extraction_resolution page2Dom (lit "ref:e1")).1
      (lit "e1") (by decide)).2.2,
    ((c3_amended_ref_extraction_resolution page2Dom (lit "#btn")).2.1
      (by decide)).1,
    (c3_amended_ref_extraction_resolution page2Dom (lit "ref:e1")).2.2
      (lit "e1") (by decide)⟩

/-! ### C7 — the executor contains every error -/

/-- C7: executeBrowserAction always returns a result string (it is a total
function into strings). A handler exception surfaces as a result string
`Error: <message>` through the outer catch; a transport exception around
the evaluate injection takes the same path; and an exception thrown by the
evaluate script itself is caught inside the page and reported as the
result string `Eval error: <message>` — no failing action aborts the
surrounding cycle. -/
theorem c7_executor_error_containment :
    (∀ (env : ExecEnv) (a : BrowserAction) (e : Str),
      isEvaluateAction a = false → env.run (dispatch a) = .error e →
      executeBrowserAction env a = lit "Error: " ++ e) ∧
    (∀ (env : ExecEnv) (script : Str) (sel : Option Str) (e : Str),
      env.eval.transport = .failed e →
      executeBrowserAction env (.evaluate script sel) = lit "Error: " ++ e) ∧
    (∀ (env : ExecEnv) (script : Str) (sel : Option Str) (e : Str),
      env.eval.transport = .ran →
      (∀ el, env.eval.runScript script el = .error e) →
      executeBrowserAction env (.evaluate script sel) =
        lit "Eval error: " ++ e) := by
  refine ⟨?_, ?_, ?_⟩
  · intro env a e hne hrun
    cases a <;> first
      | (simp [executeBrowserAction, hrun]; done)
      | simp [isEvaluateAction] at hne
  · intro env script sel e ht
    simp [executeBrowserAction, evaluateScriptResult, ht]
  · intro env script sel e ht hrun
    simp [executeBrowserAction, evaluateScriptResult, ht, evalPageResult, hrun]

/-- C7 witness: with every handler throwing, a back action and an evaluate
action both come back as `Error: ` strings; with a throwing script, the
evaluate result is the `Eval error: ` string. -/
theorem c7_executor_error_containment_witness :
    executeBrowserAction execEnvThrow .back = lit "Error: No active tab found" ∧
    executeBrowserAction execEnvThrow (.evaluate (lit "1 + 1") none) =
      lit "Error: No active tab found" ∧
    executeBrowserAction execEnvBoom (.evaluate (lit "throw 1") none) =
      lit "Eval error: boom" :=
  ⟨c7_executor_error_containment.1 execEnvThrow .back _ rfl rfl,
    c7_executor_error_containment.2.1 execEnvThrow (lit "1 + 1") none _ rfl,
    c7_executor_error_containment.2.2 execEnvBoom (lit "throw 1") none _ rfl
      fun _ => rfl⟩

/-! ### C4, C5 — loop budget and zero-action stop -/

theorem agentLoopGo_budget (env : AgentEnv)
    (hprov : env.provider = lit "copilot-agent")
    (hab : ∀ k, env.aborted k = false)
    (hcont : ∀ k, ∃ r, env.continueCall k = .ok r ∧
      (parseActionsFromResponse env.ops r).length ≠ 0) :
    ∀ (fuel : Nat) (s : LoopState) (k : Nat),
      (parseActionsFromResponse env.ops s.response).length ≠ 0 →
      (agentLoopGo env fuel s k).1.loopCount = s.loopCount + fuel ∧
      (agentLoopGo env fuel s k).2.1 = .budget ∧
      (agentLoopGo env fuel s k).2.2.length = fuel := by
  intro fuel
  induction fuel with
  | zero => exact fun s k _ => ⟨rfl, rfl, rfl⟩
  | succ n ih =>
    intro s k hacts
    obtain ⟨r, hr, hracts⟩ := hcont k
    simp only [agentLoopGo, hab k, Bool.false_eq_true, if_false, if_neg hacts,
      hprov, ne_eq, not_true_eq_false, hr]
    obtain ⟨h1, h2, h3⟩ := ih
      { loopCount := s.loopCount + 1
        consecutiveErrors :=
          (errorTrackingUpdate env.operationMode
            (((List.range (parseActionsFromResponse env.ops s.response).length).map
              (env.execResult k)).countP isErrorResult)
            s.consecutiveErrors s.useScreenshotFallback).1
        useScreenshotFallback :=
          (errorTrackingUpdate env.operationMode
            (((List.range (parseActionsFromResponse env.ops s.response).length).map
              (env.execResult k)).countP isErrorResult)
            s.consecutiveErrors s.useScreenshotFallback).2
        response := r } (k + 1) hracts
    refine ⟨?_, h2, ?_⟩
    · rw [h1]
      show s.loopCount + 1 + n = s.loopCount + (n + 1)
      omega
    · simpa using h3

/-- C4: in agent mode, with cancellation never requested and every response
carrying at least one parsable action, a budget of N loops runs exactly N
execution cycles (final loopCount and trace length are both N), stops for
the budget guard — not the zero-actions Completed branch — and emits the
max-loops warning. -/
theorem c4_loop_budget_exhausted (env : AgentEnv) (init : Str)
    (hprov : env.provider = lit "copilot-agent")
    (hab : ∀ k, env.aborted k = false)
    (hinit : (parseActionsFromResponse env.ops init).length ≠ 0)
    (hcont : ∀ k, ∃ r, env.continueCall k = .ok r ∧
      (parseActionsFromResponse env.ops r).length ≠ 0)
    (hN : 1 ≤ env.maxAgentLoops) :
    (runAgentLoop env init).final.loopCount = env.maxAgentLoops ∧
    (runAgentLoop env init).maxLoopsWarning = true ∧
    (runAgentLoop env init).reason = .budget ∧
    (runAgentLoop env init).trace.length = env.maxAgentLoops := by
  obtain ⟨h1, h2, h3⟩ := agentLoopGo_budget env hprov hab hcont env.maxAgentLoops
    { loopCount := 0, consecutiveErrors := 0,
      useScreenshotFallback := decide (env.operationMode = lit "screenshot"),
      response := init } 0 hinit
  simp only [runAgentLoop]
  refine ⟨by simpa using h1, ?_, h2, h3⟩
  rw [decide_eq_true_iff]
  omega

/-- C4 witness: a three-loop budget with an always-acting LLM executes
exactly three cycles and reports the budget exhaustion. -/
theorem c4_loop_budget_exhausted_witness :
    (runAgentLoop budgetEnv (lit "[ACTION: back]")).final.loopCount = 3 ∧
    (runAgentLoop budgetEnv (lit "[ACTION: back]")).maxLoopsWarning = true ∧
    (runAgentLoop budgetEnv (lit "[ACTION: back]")).reason = .budget ∧
    (runAgentLoop budgetEnv (lit "[ACTION: back]")).trace.length = 3 :=
  c4_loop_budget_exhausted budgetEnv (lit "[ACTION: back]") rfl (fun _ => rfl)
    (by decide) (fun _ => ⟨lit "[ACTION: back]", rfl, by decide⟩) (by decide)

/-- C5: a cycle whose response parses to zero actions stops the loop right
there — state unchanged, nothing executed, no trace record — with the
no-actions stop (the Completed outcome), whatever the completion check
said; and whenever the final loop count is below the budget the max-loops
warning is not emitted. -/
theorem c5_zero_actions_stops :
    (∀ (env : AgentEnv) (fuel : Nat) (s : LoopState) (k : Nat),
      env.aborted k = false →
      parseActionsFromResponse env.ops s.response = [] →
      agentLoopGo env (fuel + 1) s k =
        (s, .noActions (isCompletionResponse s.response), [])) ∧
    (∀ (env : AgentEnv) (init : Str),
      (runAgentLoop env init).final.loopCount < env.maxAgentLoops →
      (runAgentLoop env init).maxLoopsWarning = false) := by
  constructor
  · intro env fuel s k hab hz
    simp [agentLoopGo, hab, hz]
  · intro env init h
    simp only [runAgentLoop] at h ⊢
    rw [decide_eq_false_iff_not]
    omega

/-- C5 witness: a first response with no actions stops immediately with the
no-actions outcome, and since zero cycles ran the warning is off. -/
theorem c5_zero_actions_stops_witness :
    agentLoopGo budgetEnv 3
      (LoopState.mk 0 0 false (lit "done, no more actions")) 0 =
      (LoopState.mk 0 0 false (lit "done, no more actions"),
        .noActions (isCompletionResponse (lit "done, no more actions")), []) ∧
    (runAgentLoop budgetEnv (lit "done, no more actions")).maxLoopsWarning = false :=
  ⟨c5_zero_actions_stops.1 budgetEnv 2
      (LoopState.mk 0 0 false (lit "done, no more actions")) 0 rfl rfl,
    c5_zero_actions_stops.2 budgetEnv (lit "done, no more actions") (by decide)⟩

/-! ### C6 — hybrid fallback is one-way -/

theorem errorTrackingUpdate_incr (mode : Str) (e ce : Nat) (fb : Bool)
    (he : 0 < e) : (errorTrackingUpdate mode e ce fb).1 = ce + 1 := by
  unfold errorTrackingUpdate
  rw [if_pos he]
  split_ifs <;> rfl

theorem errorTrackingUpdate_true (mode : Str) (e ce : Nat) :
    (errorTrackingUpdate mode e ce true).2 = true := by
  unfold errorTrackingUpdate
  split_ifs with h1 h2 <;> simp_all

theorem errorTrackingUpdate_flip (e ce : Nat) (fb : Bool) (he : 0 < e)
    (hce : 2 ≤ ce) : (errorTrackingUpdate (lit "hybrid") e ce fb).2 = true := by
  unfold errorTrackingUpdate
  rw [if_pos he]
  split_ifs with h
  · rfl
  · have : fb = true := by
      rcases Bool.eq_false_or_eq_true fb with hf | hf
      · exact hf
      · exact absurd ⟨rfl, by omega, hf⟩ h
    simp [this]

theorem errorTrackingUpdate_reset (mode : Str) (ce : Nat) (fb : Bool) :
    (errorTrackingUpdate mode 0 ce fb).1 = 0 := by
  simp [errorTrackingUpdate]

theorem agentLoopGo_chain (env : AgentEnv) :
    ∀ (fuel : Nat) (s : LoopState) (k : Nat),
      traceChainOK env.operationMode s.consecutiveErrors s.useScreenshotFallback
        (agentLoopGo env fuel s k).2.2 := by
  intro fuel
  induction fuel with
  | zero => intro s k; exact trivial
  | succ n ih =>
    intro s k
    simp only [agentLoopGo]
    split
    · exact trivial
    · split
      · exact trivial
      · set u := errorTrackingUpdate env.operationMode
          (List.countP isErrorResult
            (List.map (env.execResult k)
              (List.range (parseActionsFromResponse env.ops s.response).length)))
          s.consecutiveErrors s.useScreenshotFallback with hu
        split
        · exact ⟨rfl, Or.inl rfl, trivial⟩
        · split
          · exact ⟨rfl, Or.inr rfl, trivial⟩
          · exact ⟨rfl, Or.inr rfl, trivial⟩
          next r0 heq0 =>
            exact ⟨rfl, Or.inr rfl,
              ih (LoopState.mk (s.loopCount + 1) u.1 u.2 r0) (k + 1)⟩
          next =>
            exact ⟨rfl, Or.inr rfl,
              ih (LoopState.mk (s.loopCount + 1) u.1 u.2 s.response) (k + 1)⟩
          next p0 heq0 =>
            exact ⟨rfl, Or.inr rfl,
              ih (LoopState.mk (s.loopCount + 1) u.1 u.2 p0) (k + 1)⟩

theorem chain_all_true {mode : Str} :
    ∀ {trace : List CycleRecord} {ce : Nat},
      traceChainOK mode ce true trace →
      ∀ j r, trace.get? j = some r → r.fallbackAfter = true := by
  intro trace
  induction trace with
  | nil => intro ce _ j r hj; simp at hj
  | cons rec0 rest ih =>
    intro ce h j r hj
    obtain ⟨hupd, _, hrest⟩ := h
    have hfa : rec0.fallbackAfter = true := by
      have := congrArg Prod.snd hupd
      simpa using this.trans (errorTrackingUpdate_true mode rec0.errorCount ce)
    cases j with
    | zero =>
      obtain rfl : rec0 = r := by simpa using hj
      exact hfa
    | succ m =>
      rw [hfa] at hrest
      exact ih hrest m r (by simpa using hj)

theorem chain_fallback_mono {mode : Str} :
    ∀ {trace : List CycleRecord} {ce : Nat} {fb : Bool},
      traceChainOK mode ce fb trace →
      ∀ i j ri rj, i ≤ j → trace.get? i = some ri → trace.get? j = some rj →
        ri.fallbackAfter = true → rj.fallbackAfter = true := by
  intro trace
  induction trace with
  | nil => intro ce fb _ i j ri rj _ hi; simp at hi
  | cons rec0 rest ih =>
    intro ce fb h i j ri rj hij hi hj hfb
    obtain ⟨hupd, _, hrest⟩ := h
    cases i with
    | zero =>
      obtain rfl : rec0 = ri := by simpa using hi
      cases j with
      | zero =>
        obtain rfl : rec0 = rj := by simpa using hj
        exact hfb
      | succ m =>
        rw [hfb] at hrest
        exact chain_all_true hrest m rj (by simpa using hj)
    | succ i0 =>
      cases j with
      | zero => omega
      | succ m =>
        exact ih hrest i0 m ri rj (by omega) (by simpa using hi)
          (by simpa using hj) hfb

theorem chain_ctx {mode : Str} :
    ∀ {trace : List CycleRecord} {ce : Nat} {fb : Bool},
      traceChainOK mode ce fb trace →
      ∀ i r, trace.get? i = some r →
        r.screenshotContext = none ∨ r.screenshotContext = some r.fallbackAfter := by
  intro trace
  induction trace with
  | nil => intro ce fb _ i r hi; simp at hi
  | cons rec0 rest ih =>
    intro ce fb h i r hi
    obtain ⟨_, hctx, hrest⟩ := h
    cases i with
    | zero =>
      obtain rfl : rec0 = r := by simpa using hi
      exact hctx
    | succ m => exact ih hrest m r (by simpa using hi)

theorem chain_reset {mode : Str} :
    ∀ {trace : List CycleRecord} {ce : Nat} {fb : Bool},
      traceChainOK mode ce fb trace →
      ∀ i r, trace.get? i = some r → r.errorCount = 0 →
        r.consecutiveAfter = 0 := by
  intro trace
  induction trace with
  | nil => intro ce fb _ i r hi; simp at hi
  | cons rec0 rest ih =>
    intro ce fb h i r hi hz
    obtain ⟨hupd, _, hrest⟩ := h
    cases i with
    | zero =>
      obtain rfl : rec0 = r := by simpa using hi
      have := congrArg Prod.fst hupd
      simp only at this
      rw [this, hz, errorTrackingUpdate_reset]
    | succ m => exact ih hrest m r (by simpa using hi) hz

theorem chain_flip :
    ∀ {trace : List CycleRecord} {ce : Nat} {fb : Bool},
      traceChainOK (lit "hybrid") ce fb trace →
      ∀ i r1 r2 r3 rest2, trace.drop i = r1 :: r2 :: r3 :: rest2 →
        0 < r1.errorCount → 0 < r2.errorCount → 0 < r3.errorCount →
        r3.fallbackAfter = true := by
  intro trace
  induction trace with
  | nil => intro ce fb _ i r1 r2 r3 rest2 hd; simp at hd
  | cons rec0 rest ih =>
    intro ce fb h i r1 r2 r3 rest2 hd h1 h2 h3
    obtain ⟨hupd, _, hrest⟩ := h
    cases i with
    | succ i0 => exact ih hrest i0 r1 r2 r3 rest2 (by simpa using hd) h1 h2 h3
    | zero =>
      simp only [List.drop_zero] at hd
      obtain ⟨rfl, hd2⟩ : rec0 = r1 ∧ rest = r2 :: r3 :: rest2 := by
        constructor <;> [exact (List.cons.injEq .. ▸ hd).1;
          exact (List.cons.injEq .. ▸ hd).2]
      rw [hd2] at hrest
      obtain ⟨hupd2, _, hrest2⟩ := hrest
      obtain ⟨hupd3, _, _⟩ := hrest2
      have hca1 : rec0.consecutiveAfter = ce + 1 := by
        have := congrArg Prod.fst hupd
        simpa using this.trans (errorTrackingUpdate_incr _ _ _ _ h1)
      have hca2 : r2.consecutiveAfter = rec0.consecutiveAfter + 1 := by
        have := congrArg Prod.fst hupd2
        simpa using this.trans (errorTrackingUpdate_incr _ _ _ _ h2)
      have := congrArg Prod.snd hupd3
      simpa using this.trans
        (errorTrackingUpdate_flip _ _ _ h3 (by omega))

/-- C6: over one send cycle in hybrid mode — (1) any three consecutive
executed cycles each containing at least one error-classified result leave
the screenshot-fallback flag on after the third; (2) once the flag is on
after some cycle it is on after every later cycle, and every later
context-gathering uses screenshot-augmented context; (3) a cycle with zero
error-classified results resets the consecutive-error counter. -/
theorem c6_hybrid_fallback_one_way (env : AgentEnv) (init : Str)
    (hmode : env.operationMode = lit "hybrid") :
    (∀ i r1 r2 r3 rest,
      (runAgentLoop env init).trace.drop i = r1 :: r2 :: r3 :: rest →
      0 < r1.errorCount → 0 < r2.errorCount → 0 < r3.errorCount →
      r3.fallbackAfter = true) ∧
    (∀ i j ri rj, i ≤ j →
      (runAgentLoop env init).trace.get? i = some ri →
      (runAgentLoop env init).trace.get? j = some rj →
      ri.fallbackAfter = true →
      rj.fallbackAfter = true ∧
        ∀ b, rj.screenshotContext = some b → b = true) ∧
    (∀ i r, (runAgentLoop env init).trace.get? i = some r →
      r.errorCount = 0 → r.consecutiveAfter = 0) := by
  have hchain0 := agentLoopGo_chain env env.maxAgentLoops
    (LoopState.mk 0 0 (decide (env.operationMode = lit "screenshot")) init) 0
  have hchain : traceChainOK (lit "hybrid") 0
      (decide (env.operationMode = lit "screenshot"))
      (agentLoopGo env env.maxAgentLoops
        (LoopState.mk 0 0 (decide (env.operationMode = lit "screenshot")) init)
        0).2.2 := by
    rw [← hmode]
    exact hchain0
  refine ⟨?_, ?_, ?_⟩
  · intro i r1 r2 r3 rest hd
    exact chain_flip hchain i r1 r2 r3 rest hd
  · intro i j ri rj hij hi hj hfb
    have hmono := chain_fallback_mono hchain i j ri rj hij hi hj hfb
    refine ⟨hmono, ?_⟩
    intro b hb
    rcases chain_ctx hchain j rj hj with hc | hc
    · rw [hb] at hc; exact Option.noConfusion hc
    · rw [hb] at hc
      obtain rfl := Option.some.inj hc
      exact hmono
  · intro i r hi
    exact chain_reset hchain i r hi

/-- C6 witness: in the hybrid environment with three error cycles then a
clean one, the flag is on after cycle 3, still on after the error-free
cycle 4 whose context is screenshot-augmented and whose counter is reset. -/
theorem c6_hybrid_fallback_one_way_witness :
    (∃ r3 r4,
      (runAgentLoop hybridEnv (lit "[ACTION: back]")).trace.get? 2 = some r3 ∧
      (runAgentLoop hybridEnv (lit "[ACTION: back]")).trace.get? 3 = some r4 ∧
      r3.fallbackAfter = true ∧ r4.fallbackAfter = true ∧
      r4.screenshotContext = some true ∧ r4.consecutiveAfter = 0) := by
  have h := c6_hybrid_fallback_one_way hybridEnv (lit "[ACTION: back]") rfl
  refine ⟨⟨1, 3, true, some true⟩, ⟨0, 0, true, some true⟩,
    by decide, by decide, ?_, ?_, by decide, ?_⟩
  · exact (h.1 0 ⟨1, 1, false, some false⟩ ⟨1, 2, false, some false⟩
      ⟨1, 3, true, some true⟩ [⟨0, 0, true, some true⟩] (by decide)
      (by decide) (by decide) (by decide))
  · exact (h.2.1 2 3 ⟨1, 3, true, some true⟩ ⟨0, 0, true, some true⟩
      (by omega) (by decide) (by decide) (by decide)).1
  · exact h.2.2 3 ⟨0, 0, true, some true⟩ (by decide) rfl

/-- `parseLoopGo`, expressed entry by entry: the loop's output is the
`filterMap` of `parseAction` over the raw entries collected by the same
scan, so every accepted entry contributes exactly one action and every
rejected entry contributes none, without stopping the scan. -/
theorem parseLoopGo_eq_entries (ops : HostOps) (s : Str) :
    ∀ (fuel i : Nat),
      parseLoopGo ops s fuel i =
        (entriesGo s fuel i).filterMap fun e => parseAction ops e.1 e.2 := by
  intro fuel
  induction fuel with
  | zero => intro i; rfl
  | succ n ih =>
    intro i
    simp only [parseLoopGo, entriesGo]
    cases hfind : strIndexOfFrom s actionMarker i with
    | none => rfl
    | some actionStart =>
      by_cases hd : (scanClose s (actionStart + 8) 1).2 = 0
      · simp only [hd, if_pos]
        rw [List.filterMap_cons]
        cases hpa : parseAction ops (entryAt s actionStart (scanClose s (actionStart + 8) 1).1).1
            (entryAt s actionStart (scanClose s (actionStart + 8) 1).1).2 with
        | none => exact ih _
        | some a => rw [ih _]
      · simp only [if_neg hd]
        exact ih _
set_option maxHeartbeats 3200000 in
theorem parseAction_tag (ops : HostOps) (t : Str) (p : Option Str)
    (a : BrowserAction) (h : parseAction ops t p = some a) :
    caseTag t = some a.tag := by
  unfold caseTag
  unfold parseAction at h
  simp only [] at h
  by_cases hc0 : t = lit "navigate" ∨ t = lit "goto" ∨ t = lit "open"
  · rw [if_pos hc0] at h ⊢
    first
      | exact Option.noConfusion h
      | (obtain ⟨x, hx, rfl⟩ := Option.map_eq_some'.mp h; rfl)
      | (obtain rfl := Option.some.inj h; rfl)
      | (repeat any_goals split at h
         all_goals first
           | exact Option.noConfusion h
           | (obtain rfl := Option.some.inj h; rfl))
  · rw [if_neg hc0] at h ⊢
    by_cases hc1 : t = lit "click"
    · rw [if_pos hc1] at h ⊢
      first
        | exact Option.noConfusion h
        | (obtain ⟨x, hx, rfl⟩ := Option.map_eq_some'.mp h; rfl)
        | (obtain rfl := Option.some.inj h; rfl)
        | (repeat any_goals split at h
           all_goals first
             | exact Option.noConfusion h
             | (obtain rfl := Option.some.inj h; rfl))
    · rw [if_neg hc1] at h ⊢
      by_cases hc2 : t = lit "doubleclick"
      · rw [if_pos hc2] at h ⊢
        first
          | exact Option.noConfusion h
          | (obtain ⟨x, hx, rfl⟩ := Option.map_eq_some'.mp h; rfl)
          | (obtain rfl := Option.some.inj h; rfl)
          | (repeat any_goals split at h
             all_goals first
               | exact Option.noConfusion h
               | (obtain rfl := Option.some.inj h; rfl))
      · rw [if_neg hc2] at h ⊢
        by_cases hc3 : t = lit "type" ∨ t = lit "input"
        · rw [if_pos hc3] at h ⊢
          first
            | exact Option.noConfusion h
            | (obtain ⟨x, hx, rfl⟩ := Option.map_eq_some'.mp h; rfl)
            | (obtain rfl := Option.some.inj h; rfl)
            | (repeat any_goals split at h
               all_goals first
                 | exact Option.noConfusion h
                 | (obtain rfl := Option.some.inj h; rfl))
        · rw [if_neg hc3] at h ⊢
          by_cases hc4 : t = lit "scroll"
          · rw [if_pos hc4] at h ⊢
            first
              | exact Option.noConfusion h
              | (obtain ⟨x, hx, rfl⟩ := Option.map_eq_some'.mp h; rfl)
              | (obtain rfl := Option.some.inj h; rfl)
              | (repeat any_goals split at h
                 all_goals first
                   | exact Option.noConfusion h
                   | (obtain rfl := Option.some.inj h; rfl))
          · rw [if_neg hc4] at h ⊢
            by_cases hc5 : t = lit "back"
            · rw [if_pos hc5] at h ⊢
              first
                | exact Option.noConfusion h
                | (obtain ⟨x, hx, rfl⟩ := Option.map_eq_some'.mp h; rfl)
                | (obtain rfl := Option.some.inj h; rfl)
                | (repeat any_goals split at h
                   all_goals first
                     | exact Option.noConfusion h
                     | (obtain rfl := Option.some.inj h; rfl))
            · rw [if_neg hc5] at h ⊢
              by_cases hc6 : t = lit "forward"
              · rw [if_pos hc6] at h ⊢
                first
                  | exact Option.noConfusion h
                  | (obtain ⟨x, hx, rfl⟩ := Option.map_eq_some'.mp h; rfl)
                  | (obtain rfl := Option.some.inj h; rfl)
                  | (repeat any_goals split at h
                     all_goals first
                       | exact Option.noConfusion h
                       | (obtain rfl := Option.some.inj h; rfl))
              · rw [if_neg hc6] at h ⊢
                by_cases hc7 : t = lit "reload" ∨ t = lit "refresh"
                · rw [if_pos hc7] at h ⊢
                  first
                    | exact Option.noConfusion h
                    | (obtain ⟨x, hx, rfl⟩ := Option.map_eq_some'.mp h; rfl)
                    | (obtain rfl := Option.some.inj h; rfl)
                    | (repeat any_goals split at h
                       all_goals first
                         | exact Option.noConfusion h
                         | (obtain rfl := Option.some.inj h; rfl))
                · rw [if_neg hc7] at h ⊢
                  by_cases hc8 : t = lit "newtab"
                  · rw [if_pos hc8] at h ⊢
                    first
                      | exact Option.noConfusion h
                      | (obtain ⟨x, hx, rfl⟩ := Option.map_eq_some'.mp h; rfl)
                      | (obtain rfl := Option.some.inj h; rfl)
                      | (repeat any_goals split at h
                         all_goals first
                           | exact Option.noConfusion h
                           | (obtain rfl := Option.some.inj h; rfl))
                  · rw [if_neg hc8] at h ⊢
                    by_cases hc9 : t = lit "closetab"
                    · rw [if_pos hc9] at h ⊢
                      first
                        | exact Option.noConfusion h
                        | (obtain ⟨x, hx, rfl⟩ := Option.map_eq_some'.mp h; rfl)
                        | (obtain rfl := Option.some.inj h; rfl)
                        | (repeat any_goals split at h
                           all_goals first
                             | exact Option.noConfusion h
                             | (obtain rfl := Option.some.inj h; rfl))
                    · rw [if_neg hc9] at h ⊢
                      by_cases hc10 : t = lit "screenshot"
                      · rw [if_pos hc10] at h ⊢
                        first
                          | exact Option.noConfusion h
                          | (obtain ⟨x, hx, rfl⟩ := Option.map_eq_some'.mp h; rfl)
                          | (obtain rfl := Option.some.inj h; rfl)
                          | (repeat any_goals split at h
                             all_goals first
                               | exact Option.noConfusion h
                               | (obtain rfl := Option.some.inj h; rfl))
                      · rw [if_neg hc10] at h ⊢
                        by_cases hc11 : t = lit "gethtml"
                        · rw [if_pos hc11] at h ⊢
                          first
                            | exact Option.noConfusion h
                            | (obtain ⟨x, hx, rfl⟩ := Option.map_eq_some'.mp h; rfl)
                            | (obtain rfl := Option.some.inj h; rfl)
                            | (repeat any_goals split at h
                               all_goals first
                                 | exact Option.noConfusion h
                                 | (obtain rfl := Option.some.inj h; rfl))
                        · rw [if_neg hc11] at h ⊢
                          by_cases hc12 : t = lit "waitforselector"
                          · rw [if_pos hc12] at h ⊢
                            first
                              | exact Option.noConfusion h
                              | (obtain ⟨x, hx, rfl⟩ := Option.map_eq_some'.mp h; rfl)
                              | (obtain rfl := Option.some.inj h; rfl)
                              | (repeat any_goals split at h
                                 all_goals first
                                   | exact Option.noConfusion h
                                   | (obtain rfl := Option.some.inj h; rfl))
                          · rw [if_neg hc12] at h ⊢
                            by_cases hc13 : t = lit "waitfortext"
                            · rw [if_pos hc13] at h ⊢
                              first
                                | exact Option.noConfusion h
                                | (obtain ⟨x, hx, rfl⟩ := Option.map_eq_some'.mp h; rfl)
                                | (obtain rfl := Option.some.inj h; rfl)
                                | (repeat any_goals split at h
                                   all_goals first
                                     | exact Option.noConfusion h
                                     | (obtain rfl := Option.some.inj h; rfl))
                            · rw [if_neg hc13] at h ⊢
                              by_cases hc14 : t = lit "waitfortextgone"
                              · rw [if_pos hc14] at h ⊢
                                first
                                  | exact Option.noConfusion h
                                  | (obtain ⟨x, hx, rfl⟩ := Option.map_eq_some'.mp h; rfl)
                                  | (obtain rfl := Option.some.inj h; rfl)
                                  | (repeat any_goals split at h
                                     all_goals first
                                       | exact Option.noConfusion h
                                       | (obtain rfl := Option.some.inj h; rfl))
                              · rw [if_neg hc14] at h ⊢
                                by_cases hc15 : t = lit "radio"
                                · rw [if_pos hc15] at h ⊢
                                  first
                                    | exact Option.noConfusion h
                                    | (obtain ⟨x, hx, rfl⟩ := Option.map_eq_some'.mp h; rfl)
                                    | (obtain rfl := Option.some.inj h; rfl)
                                    | (repeat any_goals split at h
                                       all_goals first
                                         | exact Option.noConfusion h
                                         | (obtain rfl := Option.some.inj h; rfl))
                                · rw [if_neg hc15] at h ⊢
                                  by_cases hc16 : t = lit "check"
                                  · rw [if_pos hc16] at h ⊢
                                    first
                                      | exact Option.noConfusion h
                                      | (obtain ⟨x, hx, rfl⟩ := Option.map_eq_some'.mp h; rfl)
                                      | (obtain rfl := Option.some.inj h; rfl)
                                      | (repeat any_goals split at h
                                         all_goals first
                                           | exact Option.noConfusion h
                                           | (obtain rfl := Option.some.inj h; rfl))
                                  · rw [if_neg hc16] at h ⊢
                                    by_cases hc17 : t = lit "uncheck"
                                    · rw [if_pos hc17] at h ⊢
                                      first
                                        | exact Option.noConfusion h
                                        | (obtain ⟨x, hx, rfl⟩ := Option.map_eq_some'.mp h; rfl)
                                        | (obtain rfl := Option.some.inj h; rfl)
                                        | (repeat any_goals split at h
                                           all_goals first
                                             | exact Option.noConfusion h
                                             | (obtain rfl := Option.some.inj h; rfl))
                                    · rw [if_neg hc17] at h ⊢
                                      by_cases hc18 : t = lit "select"
                                      · rw [if_pos hc18] at h ⊢
                                        first
                                          | exact Option.noConfusion h
                                          | (obtain ⟨x, hx, rfl⟩ := Option.map_eq_some'.mp h; rfl)
                                          | (obtain rfl := Option.some.inj h; rfl)
                                          | (repeat any_goals split at h
                                             all_goals first
                                               | exact Option.noConfusion h
                                               | (obtain rfl := Option.some.inj h; rfl))
                                      · rw [if_neg hc18] at h ⊢
                                        by_cases hc19 : t = lit "slider"
                                        · rw [if_pos hc19] at h ⊢
                                          first
                                            | exact Option.noConfusion h
                                            | (obtain ⟨x, hx, rfl⟩ := Option.map_eq_some'.mp h; rfl)
                                            | (obtain rfl := Option.some.inj h; rfl)
                                            | (repeat any_goals split at h
                                               all_goals first
                                                 | exact Option.noConfusion h
                                                 | (obtain rfl := Option.some.inj h; rfl))
                                        · rw [if_neg hc19] at h ⊢
                                          by_cases hc20 : t = lit "fillform"
                                          · rw [if_pos hc20] at h ⊢
                                            first
                                              | exact Option.noConfusion h
                                              | (obtain ⟨x, hx, rfl⟩ := Option.map_eq_some'.mp h; rfl)
                                              | (obtain rfl := Option.some.inj h; rfl)
                                              | (repeat any_goals split at h
                                                 all_goals first
                                                   | exact Option.noConfusion h
                                                   | (obtain rfl := Option.some.inj h; rfl))
                                          · rw [if_neg hc20] at h ⊢
                                            by_cases hc21 : t = lit "upload"
                                            · rw [if_pos hc21] at h ⊢
                                              first
                                                | exact Option.noConfusion h
                                                | (obtain ⟨x, hx, rfl⟩ := Option.map_eq_some'.mp h; rfl)
                                                | (obtain rfl := Option.some.inj h; rfl)
                                                | (repeat any_goals split at h
                                                   all_goals first
                                                     | exact Option.noConfusion h
                                                     | (obtain rfl := Option.some.inj h; rfl))
                                            · rw [if_neg hc21] at h ⊢
                                              by_cases hc22 : t = lit "drag"
                                              · rw [if_pos hc22] at h ⊢
                                                first
                                                  | exact Option.noConfusion h
                                                  | (obtain ⟨x, hx, rfl⟩ := Option.map_eq_some'.mp h; rfl)
                                                  | (obtain rfl := Option.some.inj h; rfl)
                                                  | (repeat any_goals split at h
                                                     all_goals first
                                                       | exact Option.noConfusion h
                                                       | (obtain rfl := Option.some.inj h; rfl))
                                              · rw [if_neg hc22] at h ⊢
                                                by_cases hc23 : t = lit "hover"
                                                · rw [if_pos hc23] at h ⊢
                                                  first
                                                    | exact Option.noConfusion h
                                                    | (obtain ⟨x, hx, rfl⟩ := Option.map_eq_some'.mp h; rfl)
                                                    | (obtain rfl := Option.some.inj h; rfl)
                                                    | (repeat any_goals split at h
                                                       all_goals first
                                                         | exact Option.noConfusion h
                                                         | (obtain rfl := Option.some.inj h; rfl))
                                                · rw [if_neg hc23] at h ⊢
                                                  by_cases hc24 : t = lit "focus"
                                                  · rw [if_pos hc24] at h ⊢
                                                    first
                                                      | exact Option.noConfusion h
                                                      | (obtain ⟨x, hx, rfl⟩ := Option.map_eq_some'.mp h; rfl)
                                                      | (obtain rfl := Option.some.inj h; rfl)
                                                      | (repeat any_goals split at h
                                                         all_goals first
                                                           | exact Option.noConfusion h
                                                           | (obtain rfl := Option.some.inj h; rfl))
                                                  · rw [if_neg hc24] at h ⊢
                                                    by_cases hc25 : t = lit "clickxy"
                                                    · rw [if_pos hc25] at h ⊢
                                                      first
                                                        | exact Option.noConfusion h
                                                        | (obtain ⟨x, hx, rfl⟩ := Option.map_eq_some'.mp h; rfl)
                                                        | (obtain rfl := Option.some.inj h; rfl)
                                                        | (repeat any_goals split at h
                                                           all_goals first
                                                             | exact Option.noConfusion h
                                                             | (obtain rfl := Option.some.inj h; rfl))
                                                    · rw [if_neg hc25] at h ⊢
                                                      by_cases hc26 : t = lit "handledialog"
                                                      · rw [if_pos hc26] at h ⊢
                                                        first
                                                          | exact Option.noConfusion h
                                                          | (obtain ⟨x, hx, rfl⟩ := Option.map_eq_some'.mp h; rfl)
                                                          | (obtain rfl := Option.some.inj h; rfl)
                                                          | (repeat any_goals split at h
                                                             all_goals first
                                                               | exact Option.noConfusion h
                                                               | (obtain rfl := Option.some.inj h; rfl))
                                                      · rw [if_neg hc26] at h ⊢
                                                        by_cases hc27 : t = lit "presskey" ∨ t = lit "press" ∨ t = lit "key"
                                                        · rw [if_pos hc27] at h ⊢
                                                          first
                                                            | exact Option.noConfusion h
                                                            | (obtain ⟨x, hx, rfl⟩ := Option.map_eq_some'.mp h; rfl)
                                                            | (obtain rfl := Option.some.inj h; rfl)
                                                            | (repeat any_goals split at h
                                                               all_goals first
                                                                 | exact Option.noConfusion h
                                                                 | (obtain rfl := Option.some.inj h; rfl))
                                                        · rw [if_neg hc27] at h ⊢
                                                          by_cases hc28 : t = lit "evaluate"
                                                          · rw [if_pos hc28] at h ⊢
                                                            first
                                                              | exact Option.noConfusion h
                                                              | (obtain ⟨x, hx, rfl⟩ := Option.map_eq_some'.mp h; rfl)
                                                              | (obtain rfl := Option.some.inj h; rfl)
                                                              | (repeat any_goals split at h
                                                                 all_goals first
                                                                   | exact Option.noConfusion h
                                                                   | (obtain rfl := Option.some.inj h; rfl))
                                                          · rw [if_neg hc28] at h ⊢
                                                            by_cases hc29 : t = lit "getconsole" ∨ t = lit "console"
                                                            · rw [if_pos hc29] at h ⊢
                                                              first
                                                                | exact Option.noConfusion h
                                                                | (obtain ⟨x, hx, rfl⟩ := Option.map_eq_some'.mp h; rfl)
                                                                | (obtain rfl := Option.some.inj h; rfl)
                                                                | (repeat any_goals split at h
                                                                   all_goals first
                                                                     | exact Option.noConfusion h
                                                                     | (obtain rfl := Option.some.inj h; rfl))
                                                            · rw [if_neg hc29] at h ⊢
                                                              by_cases hc30 : t = lit "getnetwork" ∨ t = lit "network"
                                                              · rw [if_pos hc30] at h ⊢
                                                                first
                                                                  | exact Option.noConfusion h
                                                                  | (obtain ⟨x, hx, rfl⟩ := Option.map_eq_some'.mp h; rfl)
                                                                  | (obtain rfl := Option.some.inj h; rfl)
                                                                  | (repeat any_goals split at h
                                                                     all_goals first
                                                                       | exact Option.noConfusion h
                                                                       | (obtain rfl := Option.some.inj h; rfl))
                                                              · rw [if_neg hc30] at h ⊢
                                                                by_cases hc31 : t = lit "playwright"
                                                                · rw [if_pos hc31] at h ⊢
                                                                  first
                                                                    | exact Option.noConfusion h
                                                                    | (obtain ⟨x, hx, rfl⟩ := Option.map_eq_some'.mp h; rfl)
                                                                    | (obtain rfl := Option.some.inj h; rfl)
                                                                    | (repeat any_goals split at h
                                                                       all_goals first
                                                                         | exact Option.noConfusion h
                                                                         | (obtain rfl := Option.some.inj h; rfl))
                                                                · rw [if_neg hc31] at h ⊢
                                                                  exact Option.noConfusion h

/-- C2: `parseActionsFromResponse` is a total computable function of the
input string (it cannot throw by construction), and its output is
characterised per entry: it is the `filterMap` of `parseAction` over the
well-bracketed `[ACTION: type, params]` entries in scan order, so each
entry that `parseAction` accepts yields exactly one action, each entry it
rejects (malformed, underspecified or unknown type) yields zero actions
and the remaining entries are still parsed; and whenever `parseAction`
accepts an entry, the resulting action's type tag is the `caseTag` table
entry of the case-folded action type. -/
theorem c2_parse_total_per_entry (ops : HostOps) :
    (∀ s : Str,
        parseActionsFromResponse ops s =
          (actionEntries s).filterMap fun e => parseAction ops e.1 e.2) ∧
    (∀ (t : Str) (p : Option Str) (a : BrowserAction),
        parseAction ops t p = some a → caseTag t = some a.tag) :=
  ⟨fun s => parseLoopGo_eq_entries ops s _ _,
   fun t p a h => parseAction_tag ops t p a h⟩

/-- C2 witness: at the concrete entry `click, #btn` the tag hypothesis is
discharged by evaluation and the claimed tag equation holds. -/
theorem c2_parse_total_per_entry_witness :
    caseTag (lit "click") =
      some (BrowserAction.click (lit "#btn") none none none).tag :=
  (c2_parse_total_per_entry trivialHost).2 (lit "click") (some (lit "#btn"))
    (BrowserAction.click (lit "#btn") none none none) (by rfl)

/-- C1 counterexample: parsing the response
`[ACTION: evaluate, () =&gt; \x7b return [1,2,3]; \x7d]` does not yield an
evaluate action whose script field is the full function text: the evaluate
case of `parseAction` splits its payload at the first comma, so the parsed
action carries only the tail `2,3]; \x7d` as its script and the head
`() =&gt; \x7b return [1` split off as a selector. -/
theorem c1_evaluate_script_split_at_comma :
    parseActionsFromResponse trivialHost
        (lit "[ACTION: evaluate, () => \x7b return [1,2,3]; \x7d]") =
      [.evaluate (lit "2,3]; \x7d") (some (lit "() => \x7b return [1"))] := by
  rfl

/-- C1 amended: bracket-depth scanning itself does capture the payload in
full — the single entry extracted from the response carries the whole
balanced text as its parameter string — but the evaluate case then splits
that payload at its first comma into a selector half and a script half,
whose concatenation around the comma restores the full payload. -/
theorem c1_amended_bracket_scan_captures_payload :
    actionEntries (lit "[ACTION: evaluate, () => \x7b return [1,2,3]; \x7d]") =
      [(lit "evaluate", some (lit "() => \x7b return [1,2,3]; \x7d"))] ∧
    parseActionsFromResponse trivialHost
        (lit "[ACTION: evaluate, () => \x7b return [1,2,3]; \x7d]") =
      [.evaluate (lit "2,3]; \x7d") (some (lit "() => \x7b return [1"))] ∧
    lit "() => \x7b return [1" ++ [','] ++ lit "2,3]; \x7d" =
      lit "() => \x7b return [1,2,3]; \x7d" :=
  ⟨rfl, rfl, rfl⟩

end CopilotBridge
